import Mathlib

/-!
Verification of the device power-management subsystem of this Zephyr tree:
`src/subsys/pm/device.c` (the synchronous state-transition engine and the
system-wide suspend/resume orchestrator) and `src/subsys/power/device_pm.c`
(the reference-counted runtime PM variant).

The embedding is shallow: devices are indices `0 .. n-1` into a static
registry (registration order), per-device mutable data is a function
`SysSt : Nat → DevSt`, the driver callback `dev->pm_control(dev, action)` is
an opaque result function `driver : Nat → PmDeviceAction → Int` (its power
side effects are outside this subsystem), and C error returns are `Int`
values using Zephyr's minimal-libc errno numbers.  Each function of the
source is translated clause by clause; callback invocations are recorded in
a ghost trace so that "the driver callback was (not) invoked" is observable.
-/

set_option maxHeartbeats 1000000

/-- Zephyr minimal libc errno: EIO. -/
def eio : Int := 5

/-- Zephyr minimal libc errno: EBUSY. -/
def ebusy : Int := 16

/-- Zephyr minimal libc errno: ENOSYS. -/
def enosys : Int := 88

/-- Zephyr minimal libc errno: EALREADY. -/
def ealready : Int := 120

/-- Zephyr minimal libc errno: ENOTSUP. -/
def enotsup : Int := 134

/-- `enum pm_device_state` (include/pm/device.h era of `subsys/pm/device.c`). -/
inductive PmDeviceState
  | active
  | lowPower
  | suspended
  | off
  deriving DecidableEq, Repr

/-- `enum pm_device_action` values dispatched by `pm_device_state_set`. -/
inductive PmDeviceAction
  | suspend
  | resume
  | lowPower
  | turnOff
  deriving DecidableEq, Repr

/-- Per-device mutable PM data: `dev->pm->state` and the atomic flag bits
(BUSY, WS_ENABLED, WS_CAPABLE, IGNORE_CHILDREN, TRANSITIONING). -/
structure DevSt where
  state : PmDeviceState
  transitioning : Bool
  busy : Bool
  wakeupEnabled : Bool
  wakeupCapable : Bool
  ignoreChildren : Bool
  deriving DecidableEq, Repr

/-- The mutable state of all devices, by registration index. -/
abbrev SysSt := Nat → DevSt

/-- The static device registry: `n` devices in registration order,
`hasPmControl i` models `dev->pm_control != NULL`, `driver i a` the value
returned by `dev->pm_control(dev, a)`, and `requires i` the devices that
device `i` requires (its parents), in the order `device_required_foreach`
visits them.  `requires_lt` is the registration-order invariant of the
spec: a device only requires devices registered earlier. -/
structure Registry where
  n : Nat
  hasPmControl : Nat → Bool
  driver : Nat → PmDeviceAction → Int
  requires : Nat → List Nat
  requires_lt : ∀ i j, j ∈ requires i → j < i

/-- Ghost trace of driver-callback invocations: device index, the action
passed to `pm_control`, and the device's TRANSITIONING flag at the moment
of the invocation. -/
abbrev PmTrace := List (Nat × PmDeviceAction × Bool)

/-- Write device `i`'s recorded state (`dev->pm->state = s`): all flag bits
are untouched. -/
def setDevState (σ : SysSt) (i : Nat) (s : PmDeviceState) : SysSt :=
  fun j => if j = i then { σ i with state := s } else σ j

/-- The action a target state maps to in `pm_device_state_set`'s switch. -/
def actionOf : PmDeviceState → PmDeviceAction
  | .suspended => .suspend
  | .active => .resume
  | .lowPower => .lowPower
  | .off => .turnOff

/-- The legality part of `pm_device_state_set`'s switch: given the requested
target and the current state, either the early error return (`-EALREADY`,
or `-ENOTSUP` for SUSPENDED-from-OFF) or the action to dispatch together
with the `bringup` flag (set only for the ACTIVE target). -/
def legalCheck (target current : PmDeviceState) : Except Int (PmDeviceAction × Bool) :=
  match target with
  | .suspended =>
    if current = .suspended then .error (- ealready)
    else if current = .off then .error (- enotsup)
    else .ok (.suspend, false)
  | .active =>
    if current = .active then .error (- ealready) else .ok (.resume, true)
  | .lowPower =>
    if current = .lowPower then .error (- ealready) else .ok (.lowPower, false)
  | .off =>
    if current = .off then .error (- ealready) else .ok (.turnOff, false)

/-- `pm_device_state_get`: `-ENOSYS` when the device has no `pm_control`
(the out parameter is then never assigned, modelled as `none`), else `0`
and the recorded state. -/
def pm_device_state_get (reg : Registry) (σ : SysSt) (dev : Nat) :
    Int × Option PmDeviceState :=
  if reg.hasPmControl dev then (0, some (σ dev).state) else (- enosys, none)

/-- `device_supported_cb`: visiting a device that requires the queried one;
`-EBUSY` when it does not support PM, is ACTIVE, or differs from the
requested target; `0` otherwise. -/
def device_supported_cb (reg : Registry) (σ : SysSt) (target : PmDeviceState)
    (dev : Nat) : Int :=
  let res := pm_device_state_get reg σ dev
  if res.1 = - enosys then - ebusy
  else if res.2 = some PmDeviceState.active ∨ res.2 ≠ some target then - ebusy
  else 0

/-- First nonzero visitor result of the supported walk (`0` when all pass). -/
def supported_walk (reg : Registry) (σ : SysSt) (target : PmDeviceState) :
    List Nat → Int
  | [] => 0
  | c :: rest =>
    let r := device_supported_cb reg σ target c
    if r ≠ 0 then r else supported_walk reg σ target rest

/-- Modelled from the spec: `device_supported_foreach` (static device core,
not part of these sources) visits every device that requires `dev` — the
devices `dev` supports — applying the visitor and aborting at the first
nonzero result.  The visiting order is registration order; the supported
set is derived from the `requires` edges. -/
def device_supported_foreach (reg : Registry) (σ : SysSt) (dev : Nat)
    (target : PmDeviceState) : Int :=
  supported_walk reg σ target
    ((List.range reg.n).filter (fun c => decide (dev ∈ reg.requires c)))

/-- The `-ENOSYS`/`-ENOTSUP`/`-EALREADY` results that both
`device_required_cb` and `_pm_devices` treat as "skip, not a failure". -/
def skipCode (v : Int) : Prop := v = - enosys ∨ v = - enotsup ∨ v = - ealready

instance (v : Int) : Decidable (skipCode v) := by unfold skipCode; infer_instance

/-- `device_required_cb`: run `pm_device_state_set` on a required (parent)
device — here the recursive engine is passed in as `f` — and mask
`-EALREADY`/`-ENOTSUP`/`-ENOSYS` to `0` (already in the right state, or no
PM support, is not a failure). -/
def device_required_cb (f : Nat → PmDeviceState → SysSt → Int × SysSt × PmTrace)
    (p : Nat) (target : PmDeviceState) (σ : SysSt) : Int × SysSt × PmTrace :=
  let res := f p target σ
  (if skipCode res.1 then 0 else res.1, res.2)

/-- Modelled from the spec: `device_required_foreach` (static device core,
not part of these sources) visits every device the given one requires, in
order, applying the visitor and aborting at the first nonzero result
(errors from a required device abort the whole call). -/
def device_required_foreach
    (f : Nat → PmDeviceState → SysSt → Int × SysSt × PmTrace) :
    List Nat → PmDeviceState → SysSt → Int × SysSt × PmTrace
  | [], _, σ => (0, σ, [])
  | p :: rest, target, σ =>
    let res := device_required_cb f p target σ
    if res.1 ≠ 0 then res
    else
      let res2 := device_required_foreach f rest target res.2.1
      (res2.1, res2.2.1, res.2.2 ++ res2.2.2)

/-- `pm_device_state_set`, fuel-indexed so that the recursion through
required devices is structural (the registry's `requires_lt` invariant
makes any fuel above the device index sufficient; `ss_congr` below proves
fuel irrelevance).  Mirrors the source line by line: `-ENOSYS` without a
`pm_control`; `-EBUSY` when TRANSITIONING is observed set; the legality
switch; the required/supported dependency pass; the driver callback; the
state write only after the callback returns success. -/
def ss (reg : Registry) : Nat → Nat → PmDeviceState → SysSt → Int × SysSt × PmTrace
  | 0, _, _, σ => (0, σ, [])
  | fuel + 1, dev, target, σ =>
    if reg.hasPmControl dev = false then (- enosys, σ, [])
    else if (σ dev).transitioning then (- ebusy, σ, [])
    else
      match legalCheck target ((σ dev).state) with
      | .error e => (e, σ, [])
      | .ok ab =>
        let dep :=
          if ab.2 then device_required_foreach (ss reg fuel) (reg.requires dev) target σ
          else (device_supported_foreach reg σ dev target, σ, [])
        if dep.1 < 0 then dep
        else
          let r := reg.driver dev ab.1
          let tr := dep.2.2 ++ [(dev, ab.1, ((dep.2.1) dev).transitioning)]
          if r < 0 then (r, dep.2.1, tr)
          else (0, setDevState dep.2.1 dev target, tr)

/-- `pm_device_state_set dev target`: result code, updated system state and
the ghost callback trace. -/
def pm_device_state_set (reg : Registry) (dev : Nat) (target : PmDeviceState)
    (σ : SysSt) : Int × SysSt × PmTrace :=
  ss reg (dev + 1) dev target σ

/-- The dependency pass a bring-up transition runs: `device_required_foreach`
over the devices `dev` requires, with `pm_device_state_set` as the engine. -/
def required_pass (reg : Registry) (dev : Nat) (target : PmDeviceState)
    (σ : SysSt) : Int × SysSt × PmTrace :=
  device_required_foreach (fun p => pm_device_state_set reg p)
    (reg.requires dev) target σ

/-- `pm_device_is_busy`. -/
def pm_device_is_busy (σ : SysSt) (dev : Nat) : Bool := (σ dev).busy

/-- `pm_device_wakeup_is_enabled`. -/
def pm_device_wakeup_is_enabled (σ : SysSt) (dev : Nat) : Bool := (σ dev).wakeupEnabled

/-- `pm_device_ignore_children_is_enabled`. -/
def pm_device_ignore_children_is_enabled (σ : SysSt) (dev : Nat) : Bool :=
  (σ dev).ignoreChildren

/-- The loop body of `_pm_devices`, walking a list of device indices:
skip BUSY or wakeup-enabled devices; request the target state; treat
`-ENOSYS`/`-ENOTSUP`/`-EALREADY` as a skip; abort on another negative
error; otherwise record the device in `__pm_device_slots_start`.  Returns
(result, final state, recorded slots, ghost visit trail of
(device, `pm_device_state_set` result) pairs). -/
def pm_devices_walk (reg : Registry) (target : PmDeviceState) :
    List Nat → SysSt → Int × SysSt × List Nat × List (Nat × Int)
  | [], σ => (0, σ, [], [])
  | d :: ws, σ =>
    if (σ d).busy ∨ (σ d).wakeupEnabled then pm_devices_walk reg target ws σ
    else
      let res := pm_device_state_set reg d target σ
      if skipCode res.1 then
        let rest := pm_devices_walk reg target ws res.2.1
        (rest.1, rest.2.1, rest.2.2.1, (d, res.1) :: rest.2.2.2)
      else if res.1 < 0 then (res.1, res.2.1, [], [(d, res.1)])
      else
        let rest := pm_devices_walk reg target ws res.2.1
        (rest.1, rest.2.1, d :: rest.2.2.1, (d, res.1) :: rest.2.2.2)

/-- `_pm_devices`: walk the static device list in reverse registration
order (`z_device_get_all_static` hands back the registration-ordered list;
the registry's indices are that order). -/
def _pm_devices (reg : Registry) (target : PmDeviceState) (σ : SysSt) :
    Int × SysSt × List Nat × List (Nat × Int) :=
  pm_devices_walk reg target ((List.range reg.n).reverse) σ

/-- `pm_suspend_devices`. -/
def pm_suspend_devices (reg : Registry) (σ : SysSt) :
    Int × SysSt × List Nat × List (Nat × Int) :=
  _pm_devices reg .suspended σ

/-- `pm_low_power_devices`. -/
def pm_low_power_devices (reg : Registry) (σ : SysSt) :
    Int × SysSt × List Nat × List (Nat × Int) :=
  _pm_devices reg .lowPower σ

/-- The loop of `pm_resume_devices`: request ACTIVE on each recorded device
in forward order, ignoring results. -/
def pm_resume_walk (reg : Registry) : List Nat → SysSt → SysSt × PmTrace
  | [], σ => (σ, [])
  | d :: ds, σ =>
    let res := pm_device_state_set reg d .active σ
    let rest := pm_resume_walk reg ds res.2.1
    (rest.1, res.2.2 ++ rest.2)

/-- `pm_resume_devices`: the recorded slots of the preceding suspend pass
are passed explicitly (they are the globals `__pm_device_slots_start` /
`num_susp`); the returned list is the record after the call (`num_susp = 0`). -/
def pm_resume_devices (reg : Registry) (σ : SysSt) (slots : List Nat) :
    SysSt × PmTrace × List Nat :=
  let res := pm_resume_walk reg slots σ
  (res.1, res.2, [])

/-!
The runtime (reference-counted) PM variant, `src/subsys/power/device_pm.c`.
`device_pm_request` manipulates `dev->pm->usage` and the runtime FSM state
`dev->pm->fsm_state`; the externally supplied `device_set_power_state` is
modelled by whether it completed synchronously (its callback
`device_pm_callback`, which stores the requested state into `fsm_state`,
ran before it returned); the C code assigns but never reads its return
value.  The post-kernel blocking wait on the per-device condition variable
is modelled as the in-flight transition completing (its callback resolving
RESUMING to ACTIVE and SUSPENDING to SUSPEND); liveness of that wait is a
concurrency property outside this embedding.
-/

/-- The runtime-PM FSM: the `DEVICE_PM_*_STATE` constants plus the two
internal transitioning markers. -/
inductive RtFsm
  | active
  | lowPower
  | suspend
  | forceSuspend
  | off
  | resuming
  | suspending
  deriving DecidableEq, Repr

/-- The two target states `device_pm_request` asserts it is given. -/
inductive RtTarget
  | active
  | suspend
  deriving DecidableEq, Repr

/-- The FSM state a target corresponds to. -/
def RtTarget.fsm : RtTarget → RtFsm
  | .active => .active
  | .suspend => .suspend

/-- Per-device runtime-PM data: the signed usage count and the FSM state. -/
structure RtSt where
  usage : Int
  fsm : RtFsm
  deriving DecidableEq, Repr

/-- The opaque `device_set_power_state` collaborator: `completes t` tells
whether the driver ran `device_pm_callback` (storing `t` into `fsm_state`)
before returning. -/
structure RtDriver where
  completes : RtTarget → Bool

/-- Issue `device_set_power_state(dev, t, device_pm_callback, NULL)`:
when the driver completes synchronously the callback stores the requested
state into `fsm_state`. -/
def rtIssue (drv : RtDriver) (t : RtTarget) (s : RtSt) : RtSt :=
  if drv.completes t then { s with fsm := t.fsm } else s

/-- `device_pm_callback` resolving an in-flight transition: RESUMING was
requested ACTIVE, SUSPENDING was requested SUSPEND. -/
def rtResolve : RtFsm → RtFsm
  | .resuming => .active
  | .suspending => .suspend
  | f => f

/-- The `switch (dev->pm->fsm_state)` of `device_pm_request`, after the
usage count has already been updated to `u`: on RESUMING/ACTIVE with
`usage == 0` start a suspend; on SUSPENDING/SUSPEND with `usage == 1`
start a resume; otherwise (including the "Invalid FSM state" default)
nothing.  Returns the new device state and the ghost list of hardware
requests issued. -/
def rtSwitch (drv : RtDriver) (u : Int) : RtFsm → RtSt × List RtTarget
  | .resuming =>
    if u = 0 then (rtIssue drv .suspend ⟨u, .suspending⟩, [.suspend])
    else (⟨u, .resuming⟩, [])
  | .active =>
    if u = 0 then (rtIssue drv .suspend ⟨u, .suspending⟩, [.suspend])
    else (⟨u, .active⟩, [])
  | .suspending =>
    if u = 1 then (rtIssue drv .active ⟨u, .resuming⟩, [.active])
    else (⟨u, .suspending⟩, [])
  | .suspend =>
    if u = 1 then (rtIssue drv .active ⟨u, .resuming⟩, [.active])
    else (⟨u, .suspend⟩, [])
  | f => (⟨u, f⟩, [])

/-- `device_pm_request target pm_flags` on one device: increment the usage
count for an ACTIVE target, decrement it otherwise; run the FSM switch; if
the state is then ACTIVE or SUSPEND there is nothing further to do and the
result is `0` on a match with the target, `-EIO` otherwise; an async
request returns `1`; a pre-kernel call issues `device_set_power_state`
toward ACTIVE and returns `0`; a post-kernel sync call waits on the
condition variable for the in-flight callback and then reports the match.
Result, final device state, and the ghost list of hardware requests. -/
def device_pm_request (drv : RtDriver) (target : RtTarget)
    (asyncFlag preKernel : Bool) (s : RtSt) : Int × RtSt × List RtTarget :=
  let u := if target = RtTarget.active then s.usage + 1 else s.usage - 1
  let step := rtSwitch drv u s.fsm
  if step.1.fsm = RtFsm.active ∨ step.1.fsm = RtFsm.suspend then
    (if target.fsm = step.1.fsm then 0 else - eio, step.1, step.2)
  else if asyncFlag then (1, step.1, step.2)
  else if preKernel then
    (0, rtIssue drv .active step.1, step.2 ++ [RtTarget.active])
  else
    let s2 : RtSt := { step.1 with fsm := rtResolve step.1.fsm }
    (if target.fsm = s2.fsm then 0 else - eio, s2, step.2)

/-- `device_pm_get`: async request toward ACTIVE. -/
def device_pm_get (drv : RtDriver) (preKernel : Bool) (s : RtSt) :
    Int × RtSt × List RtTarget :=
  device_pm_request drv .active true preKernel s

/-- `device_pm_get_sync`. -/
def device_pm_get_sync (drv : RtDriver) (preKernel : Bool) (s : RtSt) :
    Int × RtSt × List RtTarget :=
  device_pm_request drv .active false preKernel s

/-- `device_pm_put`: async request toward SUSPEND. -/
def device_pm_put (drv : RtDriver) (preKernel : Bool) (s : RtSt) :
    Int × RtSt × List RtTarget :=
  device_pm_request drv .suspend true preKernel s

/-- `device_pm_put_sync`. -/
def device_pm_put_sync (drv : RtDriver) (preKernel : Bool) (s : RtSt) :
    Int × RtSt × List RtTarget :=
  device_pm_request drv .suspend false preKernel s

/-- Events of a runtime-PM history on one device: an async `device_pm_get`,
an async `device_pm_put`, or the completion callback of the in-flight
hardware transition. -/
inductive RtEv
  | get
  | put
  | complete
  deriving DecidableEq, Repr

/-- A driver that never completes synchronously: completions appear as
explicit `RtEv.complete` events. -/
def rtAsyncDriver : RtDriver := ⟨fun _ => false⟩

/-- One step of a runtime-PM history (post-kernel). -/
def rtStep : RtEv → RtSt → RtSt
  | .get, s => (device_pm_get rtAsyncDriver false s).2.1
  | .put, s => (device_pm_put rtAsyncDriver false s).2.1
  | .complete, s => { s with fsm := rtResolve s.fsm }

/-- The hardware requests a step issues. -/
def rtStepReqs : RtEv → RtSt → List RtTarget
  | .get, s => (device_pm_get rtAsyncDriver false s).2.2
  | .put, s => (device_pm_put rtAsyncDriver false s).2.2
  | .complete, _ => []

/-- Run a history of events. -/
def rtRun : List RtEv → RtSt → RtSt
  | [], s => s
  | e :: es, s => rtRun es (rtStep e s)

/-- A history is balanced when every `put` occurs while the usage count is
at least 1 (no put without a matching earlier get). -/
def rtBalanced : List RtEv → RtSt → Bool
  | [], _ => true
  | e :: es, s =>
    (match e with
     | RtEv.put => decide (1 ≤ s.usage)
     | _ => true) && rtBalanced es (rtStep e s)

/-- A device starts a runtime-PM history with usage 0, either ACTIVE or
SUSPENDED. -/
def rtInit (s : RtSt) : Prop :=
  s.usage = 0 ∧ (s.fsm = RtFsm.active ∨ s.fsm = RtFsm.suspend)

/-- The runtime-PM invariant: the usage count is nonnegative, and while the
device is suspending or suspended the usage count is zero. -/
def rtInv (s : RtSt) : Prop :=
  0 ≤ s.usage ∧ ((s.fsm = RtFsm.suspending ∨ s.fsm = RtFsm.suspend) → s.usage = 0)

/-!  Fuel irrelevance for `ss` and the one-step unfolding of
`pm_device_state_set` in terms of itself. -/

lemma device_required_foreach_congr
    (f g : Nat → PmDeviceState → SysSt → Int × SysSt × PmTrace)
    (ps : List Nat) (h : ∀ p ∈ ps, ∀ t σ, f p t σ = g p t σ) :
    ∀ t σ, device_required_foreach f ps t σ = device_required_foreach g ps t σ := by
  induction ps with
  | nil => intro t σ; rfl
  | cons p rest ih =>
    intro t σ
    have hp := h p (List.mem_cons_self p rest)
    have hrest : ∀ q ∈ rest, ∀ t σ, f q t σ = g q t σ :=
      fun q hq => h q (List.mem_cons_of_mem _ hq)
    simp only [device_required_foreach, device_required_cb, hp, ih hrest]

lemma ss_congr (reg : Registry) (dev : Nat) :
    ∀ f₁ f₂ t σ, dev < f₁ → dev < f₂ → ss reg f₁ dev t σ = ss reg f₂ dev t σ := by
  induction dev using Nat.strong_induction_on with
  | _ dev ih =>
    intro f₁ f₂ t σ h₁ h₂
    obtain ⟨a, rfl⟩ : ∃ a, f₁ = a + 1 := ⟨f₁ - 1, by omega⟩
    obtain ⟨b, rfl⟩ : ∃ b, f₂ = b + 1 := ⟨f₂ - 1, by omega⟩
    have hfor : ∀ t' σ',
        device_required_foreach (ss reg a) (reg.requires dev) t' σ' =
          device_required_foreach (ss reg b) (reg.requires dev) t' σ' := by
      intro t' σ'
      refine device_required_foreach_congr _ _ _ (fun p hp t'' σ'' => ?_) t' σ'
      have hlt := reg.requires_lt dev p hp
      exact ih p hlt a b t'' σ'' (by omega) (by omega)
    simp only [ss]
    simp only [hfor]

lemma required_pass_eq (reg : Registry) (dev : Nat) (t : PmDeviceState) (σ : SysSt) :
    device_required_foreach (ss reg dev) (reg.requires dev) t σ =
      required_pass reg dev t σ := by
  refine device_required_foreach_congr _ _ _ (fun p hp t' σ' => ?_) t σ
  have hlt := reg.requires_lt dev p hp
  exact ss_congr reg p dev (p + 1) t' σ' hlt (Nat.lt_succ_self p)

lemma pm_set_unfold (reg : Registry) (dev : Nat) (t : PmDeviceState) (σ : SysSt) :
    pm_device_state_set reg dev t σ =
      if reg.hasPmControl dev = false then (- enosys, σ, [])
      else if (σ dev).transitioning then (- ebusy, σ, [])
      else
        match legalCheck t ((σ dev).state) with
        | .error e => (e, σ, [])
        | .ok ab =>
          let dep :=
            if ab.2 then required_pass reg dev t σ
            else (device_supported_foreach reg σ dev t, σ, [])
          if dep.1 < 0 then dep
          else
            let r := reg.driver dev ab.1
            let tr := dep.2.2 ++ [(dev, ab.1, ((dep.2.1) dev).transitioning)]
            if r < 0 then (r, dep.2.1, tr)
            else (0, setDevState dep.2.1 dev t, tr) := by
  show ss reg (dev + 1) dev t σ = _
  simp only [ss]
  simp only [required_pass_eq]

/-!  Facts about the legality switch. -/

lemma legalCheck_self (t : PmDeviceState) : legalCheck t t = .error (- ealready) := by
  cases t <;> simp [legalCheck]

lemma legalCheck_ok {t c : PmDeviceState} {ab : PmDeviceAction × Bool}
    (h : legalCheck t c = Except.ok ab) :
    ab.1 = actionOf t ∧ (ab.2 = true ↔ t = PmDeviceState.active) := by
  obtain ⟨a, b⟩ := ab
  cases t <;> (simp only [legalCheck] at h; split_ifs at h) <;> simp_all [actionOf]

lemma legalCheck_error {t c : PmDeviceState} {e : Int}
    (h : legalCheck t c = Except.error e) :
    (e = - ealready ∧ t = c) ∨
      (e = - enotsup ∧ t = PmDeviceState.suspended ∧ c = PmDeviceState.off) := by
  cases t <;> (simp only [legalCheck] at h; split_ifs at h <;> simp_all)

lemma legalCheck_ok_of {t c : PmDeviceState} (h1 : t ≠ c)
    (h2 : ¬(t = PmDeviceState.suspended ∧ c = PmDeviceState.off)) :
    legalCheck t c = Except.ok (actionOf t, decide (t = PmDeviceState.active)) := by
  cases t <;> cases c <;> simp_all [legalCheck, actionOf]

/-!  The transitive closure of the `requires` edges. -/

/-- `j` is reachable from `d` through `requires` edges. -/
inductive ReqAncestor (reg : Registry) : Nat → Nat → Prop
  | base {d p : Nat} : p ∈ reg.requires d → ReqAncestor reg d p
  | step {d p q : Nat} : p ∈ reg.requires d → ReqAncestor reg p q → ReqAncestor reg d q

lemma ReqAncestor.lt {reg : Registry} {d j : Nat} (h : ReqAncestor reg d j) : j < d := by
  induction h with
  | base hp => exact reg.requires_lt _ _ hp
  | step hp _ ih => exact lt_trans ih (reg.requires_lt _ _ hp)

/-!  Elimination principles for one step of `device_required_foreach` and
for one step of `ss`: every later lemma cases through these instead of
re-splitting the definition bodies. -/

lemma foreach_cons_elim (f : Nat → PmDeviceState → SysSt → Int × SysSt × PmTrace)
    (p : Nat) (rest : List Nat) (t : PmDeviceState) (σ : SysSt)
    (C : Int × SysSt × PmTrace → Prop)
    (h1 : ¬ skipCode (f p t σ).1 → (f p t σ).1 ≠ 0 → C ((f p t σ).1, (f p t σ).2))
    (h2 : skipCode (f p t σ).1 ∨ (f p t σ).1 = 0 →
       C ((device_required_foreach f rest t (f p t σ).2.1).1,
          (device_required_foreach f rest t (f p t σ).2.1).2.1,
          (f p t σ).2.2 ++ (device_required_foreach f rest t (f p t σ).2.1).2.2)) :
    C (device_required_foreach f (p :: rest) t σ) := by
  simp only [device_required_foreach, device_required_cb]
  by_cases hm : skipCode (f p t σ).1
  · rw [if_pos hm]
    simp only [ne_eq, not_true_eq_false, if_false, not_not]
    exact h2 (Or.inl hm)
  · rw [if_neg hm]
    by_cases h0 : (f p t σ).1 = 0
    · rw [if_neg (by simp [h0])]
      exact h2 (Or.inr h0)
    · rw [if_pos h0]
      exact h1 hm h0

lemma ss_succ_elim (reg : Registry) (fuel dev : Nat) (t : PmDeviceState) (σ : SysSt)
    (C : Int × SysSt × PmTrace → Prop)
    (h1 : reg.hasPmControl dev = false → C (- enosys, σ, []))
    (h2 : reg.hasPmControl dev = true → (σ dev).transitioning = true → C (- ebusy, σ, []))
    (h3 : ∀ e, reg.hasPmControl dev = true → (σ dev).transitioning = false →
       legalCheck t ((σ dev).state) = .error e → C (e, σ, []))
    (h4 : ∀ ab, reg.hasPmControl dev = true → (σ dev).transitioning = false →
       legalCheck t ((σ dev).state) = .ok ab →
       ∀ dep, dep = (if ab.2 = true
              then device_required_foreach (ss reg fuel) (reg.requires dev) t σ
              else (device_supported_foreach reg σ dev t, σ, [])) →
         (dep.1 < 0 → C dep) ∧
         (0 ≤ dep.1 → reg.driver dev ab.1 < 0 →
            C (reg.driver dev ab.1, dep.2.1,
               dep.2.2 ++ [(dev, ab.1, ((dep.2.1) dev).transitioning)])) ∧
         (0 ≤ dep.1 → 0 ≤ reg.driver dev ab.1 →
            C (0, setDevState dep.2.1 dev t,
               dep.2.2 ++ [(dev, ab.1, ((dep.2.1) dev).transitioning)]))) :
    C (ss reg (fuel + 1) dev t σ) := by
  simp only [ss]
  by_cases hpc : reg.hasPmControl dev = false
  · rw [if_pos hpc]; exact h1 hpc
  · rw [if_neg hpc]
    have hpc' : reg.hasPmControl dev = true := by
      revert hpc; cases reg.hasPmControl dev <;> simp
    by_cases htr : (σ dev).transitioning = true
    · rw [if_pos htr]; exact h2 hpc' htr
    · rw [if_neg htr]
      have htr' : (σ dev).transitioning = false := by
        revert htr; cases (σ dev).transitioning <;> simp
      split
      · rename_i e hE
        exact h3 e hpc' htr' hE
      · rename_i ab hE
        obtain ⟨hA, hB, hC⟩ := h4 ab hpc' htr' hE
          (if ab.2 = true then device_required_foreach (ss reg fuel) (reg.requires dev) t σ
           else (device_supported_foreach reg σ dev t, σ, [])) rfl
        by_cases hdep : (if ab.2 = true
            then device_required_foreach (ss reg fuel) (reg.requires dev) t σ
            else (device_supported_foreach reg σ dev t, σ, [])).1 < 0
        · rw [if_pos hdep]; exact hA hdep
        · rw [if_neg hdep]
          have hdep' := le_of_not_lt hdep
          by_cases hdrv : reg.driver dev ab.1 < 0
          · rw [if_pos hdrv]; exact hB hdep' hdrv
          · rw [if_neg hdrv]; exact hC hdep' (le_of_not_lt hdrv)

/-!  What `pm_device_state_set` writes: every state mutation of a call with
target `t` either leaves a device record untouched or sets its `state`
field to `t`, and mutations are confined to the called device and (for a
bring-up call) devices it transitively requires. -/

lemma foreach_writes (reg : Registry)
    (f : Nat → PmDeviceState → SysSt → Int × SysSt × PmTrace)
    (hf : ∀ p t σ j, (f p t σ).2.1 j = σ j ∨
      ((j = p ∨ (t = PmDeviceState.active ∧ ReqAncestor reg p j)) ∧
        (f p t σ).2.1 j = { σ j with state := t })) :
    ∀ ps t σ j, (device_required_foreach f ps t σ).2.1 j = σ j ∨
      ((∃ p ∈ ps, j = p ∨ (t = PmDeviceState.active ∧ ReqAncestor reg p j)) ∧
        (device_required_foreach f ps t σ).2.1 j = { σ j with state := t }) := by
  intro ps
  induction ps with
  | nil => intro t σ j; left; rfl
  | cons p rest ih =>
    intro t σ j
    refine foreach_cons_elim f p rest t σ
      (fun out => out.2.1 j = σ j ∨
        ((∃ q ∈ p :: rest, j = q ∨ (t = PmDeviceState.active ∧ ReqAncestor reg q j)) ∧
          out.2.1 j = { σ j with state := t }))
      (fun _ _ => ?_) (fun _ => ?_)
    · rcases hf p t σ j with h | ⟨hw, h⟩
      · left; exact h
      · right; exact ⟨⟨p, List.mem_cons_self p rest, hw⟩, h⟩
    · rcases ih t ((f p t σ).2.1) j with h2 | ⟨⟨q, hq, hw2⟩, h2⟩
      · rcases hf p t σ j with h | ⟨hw, h⟩
        · left; simp only [h2, h]
        · right
          refine ⟨⟨p, List.mem_cons_self p rest, hw⟩, ?_⟩
          simp only [h2, h]
      · rcases hf p t σ j with h | ⟨hw, h⟩
        · right
          refine ⟨⟨q, List.mem_cons_of_mem _ hq, hw2⟩, ?_⟩
          simp only [h2, h]
        · right
          refine ⟨⟨p, List.mem_cons_self p rest, hw⟩, ?_⟩
          simp only [h2, h]

lemma ss_writes (reg : Registry) :
    ∀ fuel dev t σ j, (ss reg fuel dev t σ).2.1 j = σ j ∨
      ((j = dev ∨ (t = PmDeviceState.active ∧ ReqAncestor reg dev j)) ∧
        (ss reg fuel dev t σ).2.1 j = { σ j with state := t }) := by
  intro fuel
  induction fuel with
  | zero => intro dev t σ j; left; rfl
  | succ fuel ih =>
    intro dev t σ j
    refine ss_succ_elim reg fuel dev t σ
      (fun out => out.2.1 j = σ j ∨
        ((j = dev ∨ (t = PmDeviceState.active ∧ ReqAncestor reg dev j)) ∧
          out.2.1 j = { σ j with state := t }))
      (fun _ => ?_) (fun _ _ => ?_) (fun e _ _ _ => ?_) (fun ab _ _ hE dep hdep => ?_)
    · left; rfl
    · left; rfl
    · left; rfl
    · have hdepw : dep.2.1 j = σ j ∨
          ((j = dev ∨ (t = PmDeviceState.active ∧ ReqAncestor reg dev j)) ∧
            dep.2.1 j = { σ j with state := t }) := by
        rw [hdep]
        split
        · rename_i hb
          rcases foreach_writes reg (ss reg fuel) (fun p t σ j => ih p t σ j)
              (reg.requires dev) t σ j with h | ⟨⟨p, hp, hw⟩, h⟩
          · left; exact h
          · right
            refine ⟨Or.inr ⟨?_, ?_⟩, h⟩
            · rcases hw with _ | ⟨ht, _⟩
              · exact ((legalCheck_ok hE).2.mp hb)
              · exact ht
            · rcases hw with rfl | ⟨_, hanc⟩
              · exact ReqAncestor.base hp
              · exact ReqAncestor.step hp hanc
        · left; rfl
      refine ⟨fun _ => hdepw, fun _ _ => hdepw, fun _ _ => ?_⟩
      by_cases hjd : j = dev
      · subst hjd
        rcases hdepw with h | ⟨_, h⟩ <;>
          · right
            refine ⟨Or.inl rfl, ?_⟩
            simp [setDevState, h]
      · rcases hdepw with h | ⟨hw, h⟩
        · left; simp only [setDevState, if_neg hjd, h]
        · right
          refine ⟨hw, ?_⟩
          simp only [setDevState, if_neg hjd, h]

lemma ss_flags (reg : Registry) (fuel dev : Nat) (t : PmDeviceState) (σ : SysSt)
    (j : Nat) :
    ((ss reg fuel dev t σ).2.1 j).transitioning = (σ j).transitioning ∧
    ((ss reg fuel dev t σ).2.1 j).busy = (σ j).busy ∧
    ((ss reg fuel dev t σ).2.1 j).wakeupEnabled = (σ j).wakeupEnabled ∧
    ((ss reg fuel dev t σ).2.1 j).ignoreChildren = (σ j).ignoreChildren := by
  rcases ss_writes reg fuel dev t σ j with h | ⟨_, h⟩ <;> rw [h] <;>
    exact ⟨rfl, rfl, rfl, rfl⟩

lemma foreach_nonpos (f : Nat → PmDeviceState → SysSt → Int × SysSt × PmTrace)
    (hf : ∀ p t σ, (f p t σ).1 ≤ 0) :
    ∀ ps t σ, (device_required_foreach f ps t σ).1 ≤ 0 := by
  intro ps
  induction ps with
  | nil => intro t σ; exact le_refl 0
  | cons p rest ih =>
    intro t σ
    exact foreach_cons_elim f p rest t σ (fun out => out.1 ≤ 0)
      (fun _ _ => hf p t σ) (fun _ => ih t _)

lemma ss_nonpos (reg : Registry) : ∀ fuel dev t σ, (ss reg fuel dev t σ).1 ≤ 0 := by
  intro fuel
  induction fuel with
  | zero => intro dev t σ; exact le_refl 0
  | succ fuel ih =>
    intro dev t σ
    refine ss_succ_elim reg fuel dev t σ (fun out => out.1 ≤ 0)
      (fun _ => by norm_num [enosys]) (fun _ _ => by norm_num [ebusy])
      (fun e _ _ hE => ?_) (fun ab _ _ hE dep hdep => ?_)
    · rcases legalCheck_error hE with ⟨rfl, _⟩ | ⟨rfl, _⟩ <;> norm_num [ealready, enotsup]
    · exact ⟨fun h => le_of_lt h, fun _ h => le_of_lt h, fun _ _ => le_refl 0⟩

/-- The dependency pass of a bring-up transition never reports one of the
masked skip results: `device_required_cb` has already turned those into
success. -/
lemma foreach_res (f : Nat → PmDeviceState → SysSt → Int × SysSt × PmTrace) :
    ∀ ps t σ, (device_required_foreach f ps t σ).1 = 0 ∨
      ¬ skipCode (device_required_foreach f ps t σ).1 := by
  intro ps
  induction ps with
  | nil => intro t σ; left; rfl
  | cons p rest ih =>
    intro t σ
    exact foreach_cons_elim f p rest t σ (fun out => out.1 = 0 ∨ ¬ skipCode out.1)
      (fun hm _ => Or.inr hm) (fun _ => ih t _)

/-!  The callback trace: every invocation is on the called device or one of
its transitive requirements, carries the action of the call's target, and
happens with the invoked device's TRANSITIONING flag clear. -/

lemma foreach_trace (reg : Registry)
    (f : Nat → PmDeviceState → SysSt → Int × SysSt × PmTrace)
    (hf : ∀ p t σ e, e ∈ (f p t σ).2.2 →
      (e.1 = p ∨ ReqAncestor reg p e.1) ∧ e.2.1 = actionOf t ∧ e.2.2 = false) :
    ∀ ps t σ e, e ∈ (device_required_foreach f ps t σ).2.2 →
      (∃ p ∈ ps, e.1 = p ∨ ReqAncestor reg p e.1) ∧
        e.2.1 = actionOf t ∧ e.2.2 = false := by
  intro ps
  induction ps with
  | nil => intro t σ e he; simp [device_required_foreach] at he
  | cons p rest ih =>
    intro t σ e
    refine foreach_cons_elim f p rest t σ
      (fun out => e ∈ out.2.2 →
        (∃ q ∈ p :: rest, e.1 = q ∨ ReqAncestor reg q e.1) ∧
          e.2.1 = actionOf t ∧ e.2.2 = false)
      (fun _ _ he => ?_) (fun _ he => ?_)
    · obtain ⟨h1, h2, h3⟩ := hf p t σ e he
      exact ⟨⟨p, List.mem_cons_self p rest, h1⟩, h2, h3⟩
    · rcases List.mem_append.mp he with he' | he'
      · obtain ⟨h1, h2, h3⟩ := hf p t σ e he'
        exact ⟨⟨p, List.mem_cons_self p rest, h1⟩, h2, h3⟩
      · obtain ⟨⟨q, hq, h1⟩, h2, h3⟩ := ih t _ e he'
        exact ⟨⟨q, List.mem_cons_of_mem _ hq, h1⟩, h2, h3⟩

lemma ss_trace (reg : Registry) :
    ∀ fuel dev t σ e, e ∈ (ss reg fuel dev t σ).2.2 →
      (e.1 = dev ∨ ReqAncestor reg dev e.1) ∧ e.2.1 = actionOf t ∧ e.2.2 = false := by
  intro fuel
  induction fuel with
  | zero => intro dev t σ e he; simp [ss] at he
  | succ fuel ih =>
    intro dev t σ e
    refine ss_succ_elim reg fuel dev t σ
      (fun out => e ∈ out.2.2 →
        (e.1 = dev ∨ ReqAncestor reg dev e.1) ∧ e.2.1 = actionOf t ∧ e.2.2 = false)
      (fun _ he => ?_) (fun _ _ he => ?_) (fun _ _ _ _ he => ?_)
      (fun ab hpc htr hE dep hdep => ?_)
    · simp at he
    · simp at he
    · simp at he
    · have hdeptr : ∀ e ∈ dep.2.2,
          (e.1 = dev ∨ ReqAncestor reg dev e.1) ∧ e.2.1 = actionOf t ∧ e.2.2 = false := by
        rw [hdep]
        split
        · intro e he
          obtain ⟨⟨p, hp, h1⟩, h2, h3⟩ :=
            foreach_trace reg (ss reg fuel) (fun p t σ e he => ih p t σ e he)
              (reg.requires dev) t σ e he
          refine ⟨Or.inr ?_, h2, h3⟩
          rcases h1 with rfl | hanc
          · exact ReqAncestor.base hp
          · exact ReqAncestor.step hp hanc
        · intro e he; simp at he
      have hdepfl : (dep.2.1 dev).transitioning = (σ dev).transitioning := by
        rw [hdep]
        split
        · rcases foreach_writes reg (ss reg fuel) (fun p t σ j => ss_writes reg fuel p t σ j)
              (reg.requires dev) t σ dev with h | ⟨_, h⟩ <;> rw [h]
        · rfl
      refine ⟨fun _ he => hdeptr e he, fun _ _ he => ?_, fun _ _ he => ?_⟩ <;>
      · rcases List.mem_append.mp he with he' | he'
        · exact hdeptr e he'
        · have he'' := List.mem_singleton.mp he'
          subst he''
          exact ⟨Or.inl rfl, (legalCheck_ok hE).1, by rw [hdepfl, htr]⟩

/-!  The supported (bring-down) dependency check only ever reports `0` or
`-EBUSY`. -/

lemma supported_cb_vals (reg : Registry) (σ : SysSt) (t : PmDeviceState) (c : Nat) :
    device_supported_cb reg σ t c = 0 ∨ device_supported_cb reg σ t c = - ebusy := by
  unfold device_supported_cb
  dsimp only
  split_ifs <;> simp

lemma supported_cb_ebusy (reg : Registry) (σ : SysSt) (t : PmDeviceState) (c : Nat)
    (h : reg.hasPmControl c = false ∨ (σ c).state = PmDeviceState.active ∨ (σ c).state ≠ t) :
    device_supported_cb reg σ t c = - ebusy := by
  by_cases hc : reg.hasPmControl c
  · have h' : (σ c).state = PmDeviceState.active ∨ (σ c).state ≠ t := by
      rcases h with h | h | h
      · rw [hc] at h; cases h
      · exact Or.inl h
      · exact Or.inr h
    unfold device_supported_cb pm_device_state_get
    rw [if_pos hc]
    rw [if_neg (by norm_num [enosys])]
    rw [if_pos ?_]
    rcases h' with h' | h'
    · exact Or.inl (by simp [h'])
    · exact Or.inr (by simp [h'])
  · unfold device_supported_cb pm_device_state_get
    rw [if_neg hc]
    rw [if_pos rfl]

lemma supported_walk_vals (reg : Registry) (σ : SysSt) (t : PmDeviceState) :
    ∀ cs, supported_walk reg σ t cs = 0 ∨ supported_walk reg σ t cs = - ebusy := by
  intro cs
  induction cs with
  | nil => left; rfl
  | cons c rest ih =>
    simp only [supported_walk]
    by_cases h : device_supported_cb reg σ t c = 0
    · rw [if_neg (by simp [h])]; exact ih
    · rw [if_pos h]
      rcases supported_cb_vals reg σ t c with h0 | h0
      · exact absurd h0 h
      · right; exact h0

lemma supported_foreach_vals (reg : Registry) (σ : SysSt) (dev : Nat)
    (t : PmDeviceState) :
    device_supported_foreach reg σ dev t = 0 ∨
      device_supported_foreach reg σ dev t = - ebusy :=
  supported_walk_vals reg σ t
    ((List.range reg.n).filter (fun c => decide (dev ∈ reg.requires c)))

lemma supported_walk_ebusy (reg : Registry) (σ : SysSt) (t : PmDeviceState) :
    ∀ cs c, c ∈ cs → device_supported_cb reg σ t c = - ebusy →
      supported_walk reg σ t cs = - ebusy := by
  intro cs
  induction cs with
  | nil => intro c hc; simp at hc
  | cons c' rest ih =>
    intro c hc hcb
    simp only [supported_walk]
    rcases List.mem_cons.mp hc with rfl | hc'
    · rw [if_pos (by rw [hcb]; norm_num [ebusy])]
      exact hcb
    · by_cases h : device_supported_cb reg σ t c' = 0
      · rw [if_neg (by simp [h])]
        exact ih c hc' hcb
      · rw [if_pos h]
        rcases supported_cb_vals reg σ t c' with h0 | h0
        · exact absurd h0 h
        · exact h0

/-- Well-behaved drivers: the transition callback never returns one of the
three codes `device_required_cb` masks (a driver signalling
`-EALREADY`/`-ENOTSUP`/`-ENOSYS` from inside its own transition would be
silently treated as success by the dependency pass). -/
def DriversOk (reg : Registry) : Prop := ∀ d a, ¬ skipCode (reg.driver d a)

/-!  Result characterizations of `pm_device_state_set`. -/

lemma set_res_zero (reg : Registry) (dev : Nat) (t : PmDeviceState) (σ : SysSt)
    (h : (pm_device_state_set reg dev t σ).1 = 0) :
    ((pm_device_state_set reg dev t σ).2.1 dev).state = t := by
  revert h
  refine ss_succ_elim reg dev dev t σ
    (fun out => out.1 = 0 → (out.2.1 dev).state = t)
    (fun _ h => absurd h (by norm_num [enosys]))
    (fun _ _ h => absurd h (by norm_num [ebusy]))
    (fun e _ _ hE h => ?_) (fun ab _ _ hE dep hdep => ?_)
  · rcases legalCheck_error hE with ⟨rfl, _⟩ | ⟨rfl, _⟩ <;>
      exact absurd h (by norm_num [ealready, enotsup])
  · refine ⟨fun hlt h => absurd h (by omega), fun _ hlt h => absurd h (by omega),
      fun _ _ _ => ?_⟩
    simp [setDevState]

lemma required_pass_unchanged_ge (reg : Registry) (dev : Nat) (t : PmDeviceState)
    (σ : SysSt) (j : Nat) (hj : dev ≤ j) :
    (required_pass reg dev t σ).2.1 j = σ j := by
  rcases foreach_writes reg (fun p => pm_device_state_set reg p)
      (fun p t σ j => ss_writes reg (p + 1) p t σ j) (reg.requires dev) t σ j with
    h | ⟨⟨p, hp, hw⟩, h⟩
  · exact h
  · exfalso
    have hpd := reg.requires_lt dev p hp
    rcases hw with rfl | ⟨_, hanc⟩
    · omega
    · have := hanc.lt
      omega

lemma set_enosys_of (reg : Registry) (dev : Nat) (t : PmDeviceState) (σ : SysSt)
    (hd : DriversOk reg) (h : (pm_device_state_set reg dev t σ).1 = - enosys) :
    reg.hasPmControl dev = false := by
  revert h
  refine ss_succ_elim reg dev dev t σ
    (fun out => out.1 = - enosys → reg.hasPmControl dev = false)
    (fun hf _ => hf)
    (fun _ _ h => absurd h (by norm_num [ebusy, enosys]))
    (fun e _ _ hE h => ?_) (fun ab _ _ hE dep hdep => ?_)
  · rcases legalCheck_error hE with ⟨rfl, _⟩ | ⟨rfl, _⟩ <;>
      exact absurd h (by norm_num [ealready, enotsup, enosys])
  · refine ⟨fun _ h => ?_, fun _ _ h => absurd h (fun hh => hd dev ab.1 (Or.inl hh)),
      fun _ _ h => absurd h (by norm_num [enosys])⟩
    by_cases hb : ab.2 = true
    · rw [hdep, if_pos hb] at h
      rcases foreach_res (ss reg dev) (reg.requires dev) t σ with h0 | hns
      · rw [h0] at h; exact absurd h (by norm_num [enosys])
      · exact absurd (Or.inl h) hns
    · rw [hdep, if_neg hb] at h
      have h' : device_supported_foreach reg σ dev t = - enosys := h
      rcases supported_foreach_vals reg σ dev t with h0 | h0 <;> rw [h0] at h'
      · exact absurd h' (by norm_num [enosys])
      · exact absurd h' (by norm_num [ebusy, enosys])

lemma set_active_ealready (reg : Registry) (dev : Nat) (σ : SysSt)
    (hd : DriversOk reg)
    (h : (pm_device_state_set reg dev PmDeviceState.active σ).1 = - ealready) :
    (σ dev).state = PmDeviceState.active ∧
      pm_device_state_set reg dev PmDeviceState.active σ = (- ealready, σ, []) := by
  revert h
  refine ss_succ_elim reg dev dev PmDeviceState.active σ
    (fun out => out.1 = - ealready →
      (σ dev).state = PmDeviceState.active ∧ out = (- ealready, σ, []))
    (fun _ h => absurd h (by norm_num [enosys, ealready]))
    (fun _ _ h => absurd h (by norm_num [ebusy, ealready]))
    (fun e _ _ hE h => ?_) (fun ab _ _ hE dep hdep => ?_)
  · rcases legalCheck_error hE with ⟨rfl, hc⟩ | ⟨rfl, hac, _⟩
    · exact ⟨hc.symm, rfl⟩
    · cases hac
  · have hb : ab.2 = true := (legalCheck_ok hE).2.mpr rfl
    refine ⟨fun _ h => ?_, fun _ _ h => absurd h (fun hh => hd dev ab.1 (Or.inr (Or.inr hh))),
      fun _ _ h => absurd h (by norm_num [ealready])⟩
    rw [hdep, if_pos hb] at h
    rcases foreach_res (ss reg dev) (reg.requires dev) PmDeviceState.active σ with h0 | hns
    · rw [h0] at h; exact absurd h (by norm_num [ealready])
    · exact absurd (Or.inr (Or.inr h)) hns

lemma set_active_ne_notsup (reg : Registry) (dev : Nat) (σ : SysSt)
    (hd : DriversOk reg) :
    (pm_device_state_set reg dev PmDeviceState.active σ).1 ≠ - enotsup := by
  refine ss_succ_elim reg dev dev PmDeviceState.active σ
    (fun out => out.1 ≠ - enotsup)
    (fun _ => by norm_num [enosys, enotsup])
    (fun _ _ => by norm_num [ebusy, enotsup])
    (fun e _ _ hE => ?_) (fun ab _ _ hE dep hdep => ?_)
  · rcases legalCheck_error hE with ⟨rfl, _⟩ | ⟨rfl, hac, _⟩
    · norm_num [ealready, enotsup]
    · cases hac
  · have hb : ab.2 = true := (legalCheck_ok hE).2.mpr rfl
    refine ⟨fun _ h => ?_, fun _ _ h => hd dev ab.1 (Or.inr (Or.inl h)),
      fun _ _ => by norm_num [enotsup]⟩
    rw [hdep, if_pos hb] at h
    rcases foreach_res (ss reg dev) (reg.requires dev) PmDeviceState.active σ with h0 | hns
    · rw [h0] at h; exact absurd h (by norm_num [enotsup])
    · exact absurd (Or.inr (Or.inl h)) hns

lemma foreach_preserves_active (reg : Registry) :
    ∀ ps σ j, (σ j).state = PmDeviceState.active →
      ((device_required_foreach (fun p => pm_device_state_set reg p) ps
          PmDeviceState.active σ).2.1 j).state = PmDeviceState.active := by
  intro ps σ j h
  rcases foreach_writes reg (fun p => pm_device_state_set reg p)
      (fun p t σ j => ss_writes reg (p + 1) p t σ j) ps PmDeviceState.active σ j with
    hh | ⟨_, hh⟩ <;> rw [hh]
  exact h

/-- When the bring-up dependency pass succeeds, every directly required
device that supports PM has been left in the ACTIVE state. -/
lemma foreach_active (reg : Registry) (hd : DriversOk reg) :
    ∀ ps σ,
      (device_required_foreach (fun p => pm_device_state_set reg p) ps
        PmDeviceState.active σ).1 = 0 →
      ∀ p ∈ ps, reg.hasPmControl p = true →
        ((device_required_foreach (fun p => pm_device_state_set reg p) ps
            PmDeviceState.active σ).2.1 p).state = PmDeviceState.active := by
  intro ps
  induction ps with
  | nil => intro σ _ p hp; simp at hp
  | cons q rest ih =>
    intro σ hz p hp hpc
    revert hz
    refine foreach_cons_elim (fun p => pm_device_state_set reg p) q rest
      PmDeviceState.active σ
      (fun out => out.1 = 0 → (out.2.1 p).state = PmDeviceState.active)
      (fun hm h0 hz => absurd hz h0) (fun hsk hz => ?_)
    rcases List.mem_cons.mp hp with rfl | hp'
    · have hact : ((pm_device_state_set reg p PmDeviceState.active σ).2.1 p).state
          = PmDeviceState.active := by
        rcases hsk with hsk' | h0
        · rcases hsk' with h | h | h
          · have hf := set_enosys_of reg p PmDeviceState.active σ hd h
            rw [hpc] at hf; cases hf
          · exact absurd h (set_active_ne_notsup reg p σ hd)
          · obtain ⟨ha, heq⟩ := set_active_ealready reg p σ hd h
            rw [heq]
            exact ha
        · exact set_res_zero reg p PmDeviceState.active σ h0
      exact foreach_preserves_active reg rest _ p hact
    · exact ih _ hz p hp' hpc

/-- C10: whenever `pm_device_state_set` returns a nonzero result, the
device's recorded pm state is unchanged; the state field is assigned (to
the requested target) only on a fully successful call. -/
theorem claim_C10 (reg : Registry) (dev : Nat) (t : PmDeviceState) (σ : SysSt) :
    ((pm_device_state_set reg dev t σ).1 ≠ 0 →
       ((pm_device_state_set reg dev t σ).2.1 dev).state = (σ dev).state) ∧
    (((pm_device_state_set reg dev t σ).2.1 dev).state ≠ (σ dev).state →
       (pm_device_state_set reg dev t σ).1 = 0 ∧
       ((pm_device_state_set reg dev t σ).2.1 dev).state = t) := by
  refine ss_succ_elim reg dev dev t σ
    (fun out => (out.1 ≠ 0 → (out.2.1 dev).state = (σ dev).state) ∧
      ((out.2.1 dev).state ≠ (σ dev).state → out.1 = 0 ∧ (out.2.1 dev).state = t))
    (fun _ => ⟨fun _ => rfl, fun hc => absurd rfl hc⟩)
    (fun _ _ => ⟨fun _ => rfl, fun hc => absurd rfl hc⟩)
    (fun e _ _ _ => ⟨fun _ => rfl, fun hc => absurd rfl hc⟩)
    (fun ab _ _ hE dep hdep => ?_)
  have hdev : dep.2.1 dev = σ dev := by
    rw [hdep]
    split
    · rw [required_pass_eq reg dev t σ]
      exact required_pass_unchanged_ge reg dev t σ dev le_rfl
    · rfl
  refine ⟨fun _ => ⟨fun _ => congrArg DevSt.state hdev,
      fun hc => absurd (congrArg DevSt.state hdev) hc⟩,
    fun _ _ => ⟨fun _ => congrArg DevSt.state hdev,
      fun hc => absurd (congrArg DevSt.state hdev) hc⟩,
    fun _ _ => ⟨fun h0 => absurd rfl h0, fun _ => ⟨rfl, by simp [setDevState]⟩⟩⟩

/-- C5 as the code has it: `pm_device_state_set` never modifies any
device's TRANSITIONING flag; a call that observes the flag set fails with
`-EBUSY` without invoking any callback or changing any state; and every
driver-callback invocation happens with the invoked device's TRANSITIONING
flag still clear. -/
theorem claim_C5 (reg : Registry) (dev : Nat) (t : PmDeviceState) (σ : SysSt) :
    (∀ j, ((pm_device_state_set reg dev t σ).2.1 j).transitioning =
       (σ j).transitioning) ∧
    (reg.hasPmControl dev = true → (σ dev).transitioning = true →
       pm_device_state_set reg dev t σ = (- ebusy, σ, [])) ∧
    (∀ e ∈ (pm_device_state_set reg dev t σ).2.2, e.2.2 = false) := by
  refine ⟨fun j => (ss_flags reg (dev + 1) dev t σ j).1, ?_,
    fun e he => (ss_trace reg (dev + 1) dev t σ e he).2.2⟩
  intro hpc htr
  refine ss_succ_elim reg dev dev t σ (fun out => out = (- ebusy, σ, []))
    (fun hf => by rw [hpc] at hf; cases hf)
    (fun _ _ => rfl)
    (fun e _ htr' _ => by rw [htr] at htr'; cases htr')
    (fun ab _ htr' _ dep _ => by rw [htr] at htr'; cases htr')

/-- C1: for a device with a `pm_control` callback and TRANSITIONING clear,
`pm_device_state_set` validates the target against the current state:
requesting the current state returns `-EALREADY` without invoking any
callback; requesting SUSPENDED while OFF returns `-ENOTSUP` without
invoking any callback; every callback invocation of the call carries the
action corresponding to the target; and when the legality check and the
dependency pass succeed the device's own callback is dispatched with that
action. -/
theorem claim_C1 (reg : Registry) (σ : SysSt) (dev : Nat) (target : PmDeviceState)
    (h1 : reg.hasPmControl dev = true) (h2 : (σ dev).transitioning = false) :
    (target = (σ dev).state →
       pm_device_state_set reg dev target σ = (- ealready, σ, [])) ∧
    (target = PmDeviceState.suspended → (σ dev).state = PmDeviceState.off →
       pm_device_state_set reg dev target σ = (- enotsup, σ, [])) ∧
    (∀ e ∈ (pm_device_state_set reg dev target σ).2.2, e.2.1 = actionOf target) ∧
    (target ≠ (σ dev).state →
       ¬(target = PmDeviceState.suspended ∧ (σ dev).state = PmDeviceState.off) →
       (if target = PmDeviceState.active then (required_pass reg dev target σ).1
        else device_supported_foreach reg σ dev target) = 0 →
       ∃ b, (dev, actionOf target, b) ∈ (pm_device_state_set reg dev target σ).2.2) := by
  refine ⟨?_, ?_, fun e he => (ss_trace reg (dev + 1) dev target σ e he).2.1, ?_⟩
  · intro hcur
    refine ss_succ_elim reg dev dev target σ (fun out => out = (- ealready, σ, []))
      (fun hf => by rw [h1] at hf; cases hf)
      (fun _ htr => by rw [h2] at htr; cases htr)
      (fun e _ _ hE => ?_) (fun ab _ _ hE dep hdep => ?_)
    · rw [← hcur, legalCheck_self] at hE
      simp only [Except.error.injEq] at hE
      rw [← hE]
    · rw [← hcur, legalCheck_self] at hE
      simp at hE
  · intro ht hoff
    subst ht
    refine ss_succ_elim reg dev dev PmDeviceState.suspended σ
      (fun out => out = (- enotsup, σ, []))
      (fun hf => by rw [h1] at hf; cases hf)
      (fun _ htr => by rw [h2] at htr; cases htr)
      (fun e _ _ hE => ?_) (fun ab _ _ hE dep hdep => ?_)
    · rw [hoff] at hE
      simp only [legalCheck] at hE
      split_ifs at hE <;> simp_all
    · rw [hoff] at hE
      simp [legalCheck] at hE
  · intro hne hnso hdep0
    refine ss_succ_elim reg dev dev target σ
      (fun out => ∃ b, (dev, actionOf target, b) ∈ out.2.2)
      (fun hf => by rw [h1] at hf; cases hf)
      (fun _ htr => by rw [h2] at htr; cases htr)
      (fun e _ _ hE => ?_) (fun ab _ _ hE dep hdep => ?_)
    · rw [legalCheck_ok_of (fun hh => hne hh) hnso] at hE
      simp at hE
    · have hab : ab = (actionOf target, decide (target = PmDeviceState.active)) := by
        rw [legalCheck_ok_of (fun hh => hne hh) hnso] at hE
        exact (Except.ok.inj hE).symm
      have hdep1 : dep.1 = 0 := by
        rw [hdep, hab]
        by_cases hta : target = PmDeviceState.active
        · rw [if_pos (by simp [hta])]
          have : device_required_foreach (ss reg dev) (reg.requires dev) target σ =
              required_pass reg dev target σ := required_pass_eq reg dev target σ
          rw [this]
          rw [if_pos hta] at hdep0
          exact hdep0
        · rw [if_neg (by simp [hta])]
          rw [if_neg hta] at hdep0
          exact hdep0
      refine ⟨fun hlt => absurd hdep1 (by omega), fun _ _ => ?_, fun _ _ => ?_⟩ <;>
      · refine ⟨((dep.2.1) dev).transitioning, ?_⟩
        refine List.mem_append.mpr (Or.inr ?_)
        rw [hab]
        exact List.mem_singleton.mpr rfl

/-- C8 as the code has it: a bring-down request whose legality check passes
fails with `-EBUSY`, without invoking the driver callback and without
changing any state, whenever some device that requires the target device is
ACTIVE, differs from the requested target, or does not support PM — and
this holds regardless of the device's IGNORE_CHILDREN flag, which
`pm_device_state_set` never consults. -/
theorem claim_C8 (reg : Registry) (σ : SysSt) (dev : Nat) (target : PmDeviceState)
    (h1 : reg.hasPmControl dev = true) (h2 : (σ dev).transitioning = false)
    (h3 : legalCheck target ((σ dev).state) = Except.ok (actionOf target, false))
    (h4 : ∃ c, c < reg.n ∧ dev ∈ reg.requires c ∧
       (reg.hasPmControl c = false ∨ (σ c).state = PmDeviceState.active ∨
         (σ c).state ≠ target)) :
    pm_device_state_set reg dev target σ = (- ebusy, σ, []) := by
  obtain ⟨c, hcn, hcr, hbad⟩ := h4
  have hcb := supported_cb_ebusy reg σ target c hbad
  have hwalk : device_supported_foreach reg σ dev target = - ebusy := by
    refine supported_walk_ebusy reg σ target _ c ?_ hcb
    rw [List.mem_filter]
    exact ⟨List.mem_range.mpr hcn, by simpa using hcr⟩
  refine ss_succ_elim reg dev dev target σ (fun out => out = (- ebusy, σ, []))
    (fun hf => by rw [h1] at hf; cases hf)
    (fun _ htr => by rw [h2] at htr)
    (fun e _ _ hE => by rw [h3] at hE; simp at hE)
    (fun ab _ _ hE dep hdep => ?_)
  have hab : ab = (actionOf target, false) := by
    rw [h3] at hE
    exact (Except.ok.inj hE).symm
  have hdep' : dep = (device_supported_foreach reg σ dev target, σ, ([] : PmTrace)) := by
    rw [hdep, hab]
    simp
  have hdep1 : dep.1 = - ebusy := by
    rw [hdep']
    exact hwalk
  refine ⟨fun _ => by rw [hdep', hwalk],
    fun hge _ => absurd (hdep1 ▸ hge) (by norm_num [ebusy]),
    fun hge _ => absurd (hdep1 ▸ hge) (by norm_num [ebusy])⟩

/-- C7: a bring-up transition first runs the required-devices pass; when it
succeeds every directly required PM-capable device has been forced ACTIVE
before the device's own callback is dispatched (the callback trace is the
pass's trace followed by the device's own RESUME entry); when it fails the
whole call returns that (never-masked, hence hard) error without invoking
the device's own callback and without changing its state.  Drivers are
assumed not to return one of the three masked codes. -/
theorem claim_C7 (reg : Registry) (σ : SysSt) (dev : Nat)
    (h1 : reg.hasPmControl dev = true) (h2 : (σ dev).transitioning = false)
    (h3 : (σ dev).state ≠ PmDeviceState.active) (hd : DriversOk reg) :
    ((required_pass reg dev PmDeviceState.active σ).1 = 0 →
       (∀ p ∈ reg.requires dev, reg.hasPmControl p = true →
          (((required_pass reg dev PmDeviceState.active σ).2.1) p).state =
            PmDeviceState.active) ∧
       (pm_device_state_set reg dev PmDeviceState.active σ).2.2 =
         (required_pass reg dev PmDeviceState.active σ).2.2 ++
           [(dev, PmDeviceAction.resume, false)]) ∧
    ((required_pass reg dev PmDeviceState.active σ).1 ≠ 0 →
       (pm_device_state_set reg dev PmDeviceState.active σ).1 =
         (required_pass reg dev PmDeviceState.active σ).1 ∧
       ¬ skipCode ((required_pass reg dev PmDeviceState.active σ).1) ∧
       (∀ a b, ((dev, a, b) : Nat × PmDeviceAction × Bool) ∉
          (pm_device_state_set reg dev PmDeviceState.active σ).2.2) ∧
       (pm_device_state_set reg dev PmDeviceState.active σ).2.1 dev = σ dev) := by
  have hEa : legalCheck PmDeviceState.active ((σ dev).state) =
      Except.ok (PmDeviceAction.resume, true) := by
    simp only [legalCheck]
    rw [if_neg h3]
  have hnotin : ∀ a b, ((dev, a, b) : Nat × PmDeviceAction × Bool) ∉
      (required_pass reg dev PmDeviceState.active σ).2.2 := by
    intro a b hmem
    obtain ⟨⟨p, hp, h1'⟩, _, _⟩ := foreach_trace reg (fun p => pm_device_state_set reg p)
      (fun p t σ e he => ss_trace reg (p + 1) p t σ e he)
      (reg.requires dev) PmDeviceState.active σ (dev, a, b) hmem
    have hpd := reg.requires_lt dev p hp
    rcases h1' with h1' | h1'
    · exact absurd h1' (by omega)
    · have := h1'.lt
      omega
  have hskip : (required_pass reg dev PmDeviceState.active σ).1 = 0 ∨
      ¬ skipCode ((required_pass reg dev PmDeviceState.active σ).1) :=
    foreach_res (fun p => pm_device_state_set reg p) (reg.requires dev)
      PmDeviceState.active σ
  have hnp : (required_pass reg dev PmDeviceState.active σ).1 ≤ 0 :=
    foreach_nonpos (fun p => pm_device_state_set reg p)
      (fun p t σ => ss_nonpos reg (p + 1) p t σ) (reg.requires dev)
      PmDeviceState.active σ
  have hfl : ((required_pass reg dev PmDeviceState.active σ).2.1 dev).transitioning
      = (σ dev).transitioning := by
    have := required_pass_unchanged_ge reg dev PmDeviceState.active σ dev le_rfl
    rw [this]
  refine ss_succ_elim reg dev dev PmDeviceState.active σ
    (fun out =>
      ((required_pass reg dev PmDeviceState.active σ).1 = 0 →
       (∀ p ∈ reg.requires dev, reg.hasPmControl p = true →
          (((required_pass reg dev PmDeviceState.active σ).2.1) p).state =
            PmDeviceState.active) ∧
       out.2.2 = (required_pass reg dev PmDeviceState.active σ).2.2 ++
           [(dev, PmDeviceAction.resume, false)]) ∧
      ((required_pass reg dev PmDeviceState.active σ).1 ≠ 0 →
       out.1 = (required_pass reg dev PmDeviceState.active σ).1 ∧
       ¬ skipCode ((required_pass reg dev PmDeviceState.active σ).1) ∧
       (∀ a b, ((dev, a, b) : Nat × PmDeviceAction × Bool) ∉ out.2.2) ∧
       out.2.1 dev = σ dev))
    (fun hf => by rw [h1] at hf; cases hf)
    (fun _ htr => by rw [h2] at htr; cases htr)
    (fun e _ _ hE => by rw [hEa] at hE; simp at hE)
    (fun ab _ _ hE dep hdep => ?_)
  have hab : ab = (PmDeviceAction.resume, true) := by
    rw [hEa] at hE
    exact (Except.ok.inj hE).symm
  have hdepc : dep = required_pass reg dev PmDeviceState.active σ := by
    rw [hdep, hab]
    simp only [if_pos rfl]
    exact required_pass_eq reg dev PmDeviceState.active σ
  refine ⟨fun hlt => ?_, fun hge hdrv => ?_, fun hge hdrv => ?_⟩
  · -- dependency pass failed
    rw [hdepc] at hlt
    constructor
    · intro hz; rw [hz] at hlt; exact absurd hlt (by omega)
    · intro hnz
      refine ⟨by rw [hdepc], ?_, ?_, ?_⟩
      · rcases hskip with hz | hsk
        · exact absurd hz hnz
        · exact hsk
      · intro a b
        rw [hdepc]
        exact hnotin a b
      · rw [hdepc]
        exact required_pass_unchanged_ge reg dev PmDeviceState.active σ dev le_rfl
  · -- driver callback invoked but failed: the pass had succeeded
    rw [hdepc] at hge
    have hz : (required_pass reg dev PmDeviceState.active σ).1 = 0 := by omega
    constructor
    · intro _
      refine ⟨fun p hp hpc =>
        foreach_active reg hd (reg.requires dev) σ hz p hp hpc, ?_⟩
      rw [hdepc, hab, hfl, h2]
    · intro hnz
      exact absurd hz hnz
  · -- full success
    rw [hdepc] at hge
    have hz : (required_pass reg dev PmDeviceState.active σ).1 = 0 := by omega
    constructor
    · intro _
      refine ⟨fun p hp hpc =>
        foreach_active reg hd (reg.requires dev) σ hz p hp hpc, ?_⟩
      rw [hdepc, hab, hfl, h2]
    · intro hnz
      exact absurd hz hnz

/-!  The system-wide suspend walk. -/

lemma skipCode_ne_zero {v : Int} (h : skipCode v) : v ≠ 0 := by
  rcases h with h | h | h <;> rw [h] <;> norm_num [enosys, enotsup, ealready]

lemma set_nonbringup_untouched (reg : Registry) (dev : Nat) (t : PmDeviceState)
    (σ : SysSt) (j : Nat) (ht : t ≠ PmDeviceState.active) (hj : j ≠ dev) :
    (pm_device_state_set reg dev t σ).2.1 j = σ j := by
  rcases ss_writes reg (dev + 1) dev t σ j with h | ⟨hw, h⟩
  · exact h
  · rcases hw with rfl | ⟨hta, _⟩
    · exact absurd rfl hj
    · exact absurd hta ht

lemma walk_cons_elim (reg : Registry) (t : PmDeviceState) (d : Nat) (ws : List Nat)
    (σ : SysSt) (C : Int × SysSt × List Nat × List (Nat × Int) → Prop)
    (h0 : ((σ d).busy = true ∨ (σ d).wakeupEnabled = true) →
       C (pm_devices_walk reg t ws σ))
    (h1 : (σ d).busy = false → (σ d).wakeupEnabled = false →
       skipCode (pm_device_state_set reg d t σ).1 →
       C ((pm_devices_walk reg t ws (pm_device_state_set reg d t σ).2.1).1,
          (pm_devices_walk reg t ws (pm_device_state_set reg d t σ).2.1).2.1,
          (pm_devices_walk reg t ws (pm_device_state_set reg d t σ).2.1).2.2.1,
          (d, (pm_device_state_set reg d t σ).1) ::
            (pm_devices_walk reg t ws (pm_device_state_set reg d t σ).2.1).2.2.2))
    (h2 : (σ d).busy = false → (σ d).wakeupEnabled = false →
       ¬ skipCode (pm_device_state_set reg d t σ).1 →
       (pm_device_state_set reg d t σ).1 < 0 →
       C ((pm_device_state_set reg d t σ).1, (pm_device_state_set reg d t σ).2.1, [],
          [(d, (pm_device_state_set reg d t σ).1)]))
    (h3 : (σ d).busy = false → (σ d).wakeupEnabled = false →
       ¬ skipCode (pm_device_state_set reg d t σ).1 →
       (pm_device_state_set reg d t σ).1 = 0 →
       C ((pm_devices_walk reg t ws (pm_device_state_set reg d t σ).2.1).1,
          (pm_devices_walk reg t ws (pm_device_state_set reg d t σ).2.1).2.1,
          d :: (pm_devices_walk reg t ws (pm_device_state_set reg d t σ).2.1).2.2.1,
          (d, (pm_device_state_set reg d t σ).1) ::
            (pm_devices_walk reg t ws (pm_device_state_set reg d t σ).2.1).2.2.2)) :
    C (pm_devices_walk reg t (d :: ws) σ) := by
  simp only [pm_devices_walk]
  by_cases hbw : (σ d).busy = true ∨ (σ d).wakeupEnabled = true
  · rw [if_pos hbw]
    exact h0 hbw
  · rw [if_neg hbw]
    have hb : (σ d).busy = false := by
      revert hbw; cases (σ d).busy <;> simp
    have hw : (σ d).wakeupEnabled = false := by
      revert hbw; cases (σ d).wakeupEnabled <;> simp
    by_cases hsk : skipCode (pm_device_state_set reg d t σ).1
    · rw [if_pos hsk]
      exact h1 hb hw hsk
    · rw [if_neg hsk]
      by_cases hlt : (pm_device_state_set reg d t σ).1 < 0
      · rw [if_pos hlt]
        exact h2 hb hw hsk hlt
      · rw [if_neg hlt]
        have hz : (pm_device_state_set reg d t σ).1 = 0 := by
          have hle : (pm_device_state_set reg d t σ).1 ≤ 0 := ss_nonpos reg (d + 1) d t σ
          omega
        exact h3 hb hw hsk hz

/-- The full characterization of one `_pm_devices` walk over a device list:
its ghost trail is a sub-walk of the list in order; visited devices were
neither BUSY nor wakeup-enabled; unvisited devices are untouched; the
recorded slots are exactly the trail entries whose transition returned 0;
on success every visit returned 0 or a skip code; on failure the result is
a hard negative error, the trail ends with it, and everything before it was
a success or a skip. -/
def WalkSpec (ws : List Nat) (σ : SysSt)
    (out : Int × SysSt × List Nat × List (Nat × Int)) : Prop :=
  ((out.2.2.2.map Prod.fst).Sublist ws) ∧
  (∀ d rv, (d, rv) ∈ out.2.2.2 → (σ d).busy = false ∧ (σ d).wakeupEnabled = false) ∧
  (∀ j, (∀ rv, ((j, rv) : Nat × Int) ∉ out.2.2.2) → out.2.1 j = σ j) ∧
  (out.2.2.1 = (out.2.2.2.filter (fun e => decide (e.2 = 0))).map Prod.fst) ∧
  (out.1 = 0 → ∀ e ∈ out.2.2.2, e.2 = 0 ∨ skipCode e.2) ∧
  (out.1 ≠ 0 → out.1 < 0 ∧ ¬ skipCode out.1 ∧
     ∃ pre dl, out.2.2.2 = pre ++ [(dl, out.1)] ∧ ∀ e ∈ pre, e.2 = 0 ∨ skipCode e.2)

lemma pm_devices_walk_spec (reg : Registry) (t : PmDeviceState)
    (ht : t ≠ PmDeviceState.active) :
    ∀ ws σ, WalkSpec ws σ (pm_devices_walk reg t ws σ) := by
  intro ws
  induction ws with
  | nil =>
    intro σ
    exact ⟨List.nil_sublist _, fun d rv h => absurd h (List.not_mem_nil _),
      fun j _ => rfl, rfl, fun _ e he => absurd he (List.not_mem_nil e),
      fun hnz => absurd rfl hnz⟩
  | cons d ws ih =>
    intro σ
    refine walk_cons_elim reg t d ws σ (WalkSpec (d :: ws) σ) ?_ ?_ ?_ ?_
    · intro _
      obtain ⟨i1, i2, i3, i4, i5, i6⟩ := ih σ
      exact ⟨i1.cons d, i2, i3, i4, i5, i6⟩
    · intro hb hw hsk
      obtain ⟨i1, i2, i3, i4, i5, i6⟩ := ih ((pm_device_state_set reg d t σ).2.1)
      refine ⟨i1.cons₂ d, ?_, ?_, ?_, ?_, ?_⟩
      · intro d' rv' hm
        rcases List.mem_cons.mp hm with hm' | hm'
        · obtain ⟨rfl, _⟩ := Prod.mk.injEq .. ▸ hm'
          exact ⟨hb, hw⟩
        · obtain ⟨hbb, hww⟩ := i2 d' rv' hm'
          constructor
          · rw [← (ss_flags reg (d + 1) d t σ d').2.1]; exact hbb
          · rw [← (ss_flags reg (d + 1) d t σ d').2.2.1]; exact hww
      · intro j hj
        have hjd : j ≠ d := by
          intro hh
          exact hj (pm_device_state_set reg d t σ).1
            (hh ▸ List.mem_cons_self _ _)
        have h2' : ∀ rv, ((j, rv) : Nat × Int) ∉
            (pm_devices_walk reg t ws (pm_device_state_set reg d t σ).2.1).2.2.2 :=
          fun rv hm => hj rv (List.mem_cons_of_mem _ hm)
        rw [i3 j h2']
        exact set_nonbringup_untouched reg d t σ j ht hjd
      · have hne := skipCode_ne_zero hsk
        simp only [List.filter_cons, decide_eq_true_eq, hne, if_false]
        exact i4
      · intro hz e he
        rcases List.mem_cons.mp he with rfl | he'
        · exact Or.inr hsk
        · exact i5 hz e he'
      · intro hnz
        obtain ⟨hlt, hnsk, pre, dl, htr, hpre⟩ := i6 hnz
        refine ⟨hlt, hnsk, (d, (pm_device_state_set reg d t σ).1) :: pre, dl, ?_, ?_⟩
        · rw [List.cons_append, htr]
        · intro e he
          rcases List.mem_cons.mp he with rfl | he'
          · exact Or.inr hsk
          · exact hpre e he'
    · intro hb hw hnsk hlt
      refine ⟨(List.nil_sublist ws).cons₂ d, ?_, ?_, ?_, ?_, ?_⟩
      · intro d' rv' hm
        rcases List.mem_cons.mp hm with hm' | hm'
        · obtain ⟨rfl, _⟩ := Prod.mk.injEq .. ▸ hm'
          exact ⟨hb, hw⟩
        · exact absurd hm' (List.not_mem_nil _)
      · intro j hj
        have hjd : j ≠ d := by
          intro hh
          exact hj (pm_device_state_set reg d t σ).1
            (hh ▸ List.mem_cons_self _ _)
        exact set_nonbringup_untouched reg d t σ j ht hjd
      · have hne : (pm_device_state_set reg d t σ).1 ≠ 0 := by omega
        simp only [List.filter_cons, decide_eq_true_eq, hne, if_false, List.filter_nil,
          List.map_nil]
      · intro hz
        exact absurd hz (by omega)
      · intro _
        exact ⟨hlt, hnsk, [], d, rfl, fun e he => absurd he (List.not_mem_nil e)⟩
    · intro hb hw hnsk hz
      obtain ⟨i1, i2, i3, i4, i5, i6⟩ := ih ((pm_device_state_set reg d t σ).2.1)
      refine ⟨i1.cons₂ d, ?_, ?_, ?_, ?_, ?_⟩
      · intro d' rv' hm
        rcases List.mem_cons.mp hm with hm' | hm'
        · obtain ⟨rfl, _⟩ := Prod.mk.injEq .. ▸ hm'
          exact ⟨hb, hw⟩
        · obtain ⟨hbb, hww⟩ := i2 d' rv' hm'
          constructor
          · rw [← (ss_flags reg (d + 1) d t σ d').2.1]; exact hbb
          · rw [← (ss_flags reg (d + 1) d t σ d').2.2.1]; exact hww
      · intro j hj
        have hjd : j ≠ d := by
          intro hh
          exact hj (pm_device_state_set reg d t σ).1
            (hh ▸ List.mem_cons_self _ _)
        have h2' : ∀ rv, ((j, rv) : Nat × Int) ∉
            (pm_devices_walk reg t ws (pm_device_state_set reg d t σ).2.1).2.2.2 :=
          fun rv hm => hj rv (List.mem_cons_of_mem _ hm)
        rw [i3 j h2']
        exact set_nonbringup_untouched reg d t σ j ht hjd
      · simp only [List.filter_cons, decide_eq_true_eq, hz, if_true, List.map_cons]
        rw [i4]
      · intro hz' e he
        rcases List.mem_cons.mp he with rfl | he'
        · exact Or.inl hz
        · exact i5 hz' e he'
      · intro hnz
        obtain ⟨hlt, hnsk', pre, dl, htr, hpre⟩ := i6 hnz
        refine ⟨hlt, hnsk', (d, (pm_device_state_set reg d t σ).1) :: pre, dl, ?_, ?_⟩
        · rw [List.cons_append, htr]
        · intro e he
          rcases List.mem_cons.mp he with rfl | he'
          · exact Or.inl hz
          · exact hpre e he'

/-- C3: `pm_suspend_devices` walks the static list in reverse registration
order (its ghost trail is strictly decreasing), never visits a BUSY or
wakeup-enabled device (and leaves every unvisited device untouched),
records exactly the devices whose transition returned 0, treats
`-ENOSYS`/`-ENOTSUP`/`-EALREADY` as non-fatal skips, and aborts the walk
returning the first other negative error. -/
theorem claim_C3 (reg : Registry) (σ : SysSt) :
    (((pm_suspend_devices reg σ).2.2.2.map Prod.fst).Pairwise (fun a b => b < a)) ∧
    (∀ d rv, (d, rv) ∈ (pm_suspend_devices reg σ).2.2.2 →
       d < reg.n ∧ (σ d).busy = false ∧ (σ d).wakeupEnabled = false) ∧
    (∀ j, (∀ rv, ((j, rv) : Nat × Int) ∉ (pm_suspend_devices reg σ).2.2.2) →
       (pm_suspend_devices reg σ).2.1 j = σ j) ∧
    ((pm_suspend_devices reg σ).2.2.1 =
      ((pm_suspend_devices reg σ).2.2.2.filter
        (fun e => decide (e.2 = 0))).map Prod.fst) ∧
    ((pm_suspend_devices reg σ).1 = 0 →
       ∀ e ∈ (pm_suspend_devices reg σ).2.2.2, e.2 = 0 ∨ skipCode e.2) ∧
    ((pm_suspend_devices reg σ).1 ≠ 0 →
       (pm_suspend_devices reg σ).1 < 0 ∧
       ¬ skipCode (pm_suspend_devices reg σ).1 ∧
       ∃ pre dl, (pm_suspend_devices reg σ).2.2.2 =
           pre ++ [(dl, (pm_suspend_devices reg σ).1)] ∧
         ∀ e ∈ pre, e.2 = 0 ∨ skipCode e.2) := by
  obtain ⟨i1, i2, i3, i4, i5, i6⟩ :=
    pm_devices_walk_spec reg PmDeviceState.suspended (by simp)
      ((List.range reg.n).reverse) σ
  refine ⟨?_, ?_, i3, i4, i5, i6⟩
  · have hrev : ((List.range reg.n).reverse).Pairwise (fun a b => b < a) := by
      rw [List.pairwise_reverse]
      exact List.pairwise_lt_range reg.n
    exact hrev.sublist i1
  · intro d rv hm
    have hd : d ∈ (List.range reg.n).reverse :=
      i1.subset (List.mem_map_of_mem Prod.fst hm)
    refine ⟨List.mem_range.mp (List.mem_reverse.mp hd), i2 d rv hm⟩

/-- C9 as the code has it: the suspend pass never touches a BUSY device —
its whole record (state and flags) after `pm_suspend_devices` equals its
record before.  (A busy device that was already SUSPENDED therefore stays
SUSPENDED: the claim's stronger reading is refuted separately.) -/
theorem claim_C9 (reg : Registry) (σ : SysSt) (d : Nat) (hb : (σ d).busy = true) :
    (pm_suspend_devices reg σ).2.1 d = σ d := by
  obtain ⟨_, i2, i3, _, _, _⟩ :=
    pm_devices_walk_spec reg PmDeviceState.suspended (by simp)
      ((List.range reg.n).reverse) σ
  refine i3 d ?_
  intro rv hm
  obtain ⟨hbb, _⟩ := i2 d rv hm
  rw [hb] at hbb
  cases hbb

lemma resume_walk_confine (reg : Registry) :
    ∀ ds σ j, (pm_resume_walk reg ds σ).1 j ≠ σ j →
      ∃ d ∈ ds, j = d ∨ ReqAncestor reg d j := by
  intro ds
  induction ds with
  | nil => intro σ j h; exact absurd rfl h
  | cons d rest ih =>
    intro σ j h
    have hstep : (pm_resume_walk reg rest
        (pm_device_state_set reg d PmDeviceState.active σ).2.1).1 j ≠ σ j := h
    by_cases h1 : (pm_resume_walk reg rest
        (pm_device_state_set reg d PmDeviceState.active σ).2.1).1 j
        = (pm_device_state_set reg d PmDeviceState.active σ).2.1 j
    · have h2 : (pm_device_state_set reg d PmDeviceState.active σ).2.1 j ≠ σ j := by
        rw [← h1]
        exact hstep
      rcases ss_writes reg (d + 1) d PmDeviceState.active σ j with hh | ⟨hw, hh⟩
      · exact absurd hh h2
      · rcases hw with rfl | ⟨_, hanc⟩
        · exact ⟨j, List.mem_cons_self _ _, Or.inl rfl⟩
        · exact ⟨d, List.mem_cons_self _ _, Or.inr hanc⟩
    · obtain ⟨d', hd', hor⟩ := ih _ j h1
      exact ⟨d', List.mem_cons_of_mem _ hd', hor⟩

/-- C4 as the code has it: `pm_resume_devices` clears the record, and every
device whose state it changes is either one of the recorded devices (which
it walks in forward order, requesting ACTIVE on each) or a device some
recorded device transitively requires — the bring-up dependency
propagation, which can reach devices the suspend pass skipped. -/
theorem claim_C4 (reg : Registry) (σ : SysSt) (slots : List Nat) :
    ((pm_resume_devices reg σ slots).2.2 = []) ∧
    (∀ j, (pm_resume_devices reg σ slots).1 j ≠ σ j →
       ∃ d ∈ slots, j = d ∨ ReqAncestor reg d j) :=
  ⟨rfl, fun j h => resume_walk_confine reg slots σ j h⟩

/-!  Small facts about the runtime-PM switch. -/

lemma rtIssue_usage (drv : RtDriver) (t : RtTarget) (s : RtSt) :
    (rtIssue drv t s).usage = s.usage := by
  unfold rtIssue
  split_ifs <;> rfl

lemma rtSwitch_usage (drv : RtDriver) (u : Int) (f : RtFsm) :
    (rtSwitch drv u f).1.usage = u := by
  cases f <;> simp only [rtSwitch] <;> split_ifs <;> simp [rtIssue_usage]

lemma rtSwitch_reqs_active (drv : RtDriver) (u : Int) (f : RtFsm)
    (h : RtTarget.active ∈ (rtSwitch drv u f).2) : u = 1 := by
  cases f <;> simp only [rtSwitch] at h <;> (try split_ifs at h) <;> simp_all

lemma rtSwitch_reqs_suspend (drv : RtDriver) (u : Int) (f : RtFsm)
    (h : RtTarget.suspend ∈ (rtSwitch drv u f).2) : u = 0 := by
  cases f <;> simp only [rtSwitch] at h <;> (try split_ifs at h) <;> simp_all

lemma rtSwitch_core (drv : RtDriver) (u : Int) (f : RtFsm)
    (hc : f = RtFsm.active ∨ f = RtFsm.suspend ∨ f = RtFsm.resuming ∨
      f = RtFsm.suspending) :
    (rtSwitch drv u f).1.fsm = RtFsm.active ∨
    (rtSwitch drv u f).1.fsm = RtFsm.suspend ∨
    (rtSwitch drv u f).1.fsm = RtFsm.resuming ∨
    (rtSwitch drv u f).1.fsm = RtFsm.suspending := by
  rcases hc with rfl | rfl | rfl | rfl <;> simp only [rtSwitch] <;> split_ifs <;>
    simp [rtIssue, RtTarget.fsm] <;> split_ifs <;> simp

/-- Elimination principle for the four exit paths of `device_pm_request`. -/
lemma rt_request_elim (drv : RtDriver) (target : RtTarget)
    (asyncFlag preKernel : Bool) (s : RtSt) (C : Int × RtSt × List RtTarget → Prop)
    (h1 : ∀ step, step = rtSwitch drv
        (if target = RtTarget.active then s.usage + 1 else s.usage - 1) s.fsm →
       (step.1.fsm = RtFsm.active ∨ step.1.fsm = RtFsm.suspend) →
       C (if target.fsm = step.1.fsm then 0 else - eio, step.1, step.2))
    (h2 : ∀ step, step = rtSwitch drv
        (if target = RtTarget.active then s.usage + 1 else s.usage - 1) s.fsm →
       ¬(step.1.fsm = RtFsm.active ∨ step.1.fsm = RtFsm.suspend) →
       asyncFlag = true → C (1, step.1, step.2))
    (h3 : ∀ step, step = rtSwitch drv
        (if target = RtTarget.active then s.usage + 1 else s.usage - 1) s.fsm →
       ¬(step.1.fsm = RtFsm.active ∨ step.1.fsm = RtFsm.suspend) →
       asyncFlag = false → preKernel = true →
       C (0, rtIssue drv RtTarget.active step.1, step.2 ++ [RtTarget.active]))
    (h4 : ∀ step, step = rtSwitch drv
        (if target = RtTarget.active then s.usage + 1 else s.usage - 1) s.fsm →
       ¬(step.1.fsm = RtFsm.active ∨ step.1.fsm = RtFsm.suspend) →
       asyncFlag = false → preKernel = false →
       C (if target.fsm = rtResolve step.1.fsm then 0 else - eio,
          { step.1 with fsm := rtResolve step.1.fsm }, step.2)) :
    C (device_pm_request drv target asyncFlag preKernel s) := by
  simp only [device_pm_request]
  by_cases hfin : ((rtSwitch drv
      (if target = RtTarget.active then s.usage + 1 else s.usage - 1) s.fsm).1.fsm
        = RtFsm.active ∨
      (rtSwitch drv
        (if target = RtTarget.active then s.usage + 1 else s.usage - 1) s.fsm).1.fsm
          = RtFsm.suspend)
  · rw [if_pos hfin]
    exact h1 _ rfl hfin
  · rw [if_neg hfin]
    by_cases ha : asyncFlag = true
    · rw [if_pos ha]
      exact h2 _ rfl hfin ha
    · rw [if_neg ha]
      have ha' : asyncFlag = false := by
        revert ha; cases asyncFlag <;> simp
      by_cases hp : preKernel = true
      · rw [if_pos hp]
        exact h3 _ rfl hfin ha' hp
      · rw [if_neg hp]
        have hp' : preKernel = false := by
          revert hp; cases preKernel <;> simp
        exact h4 _ rfl hfin ha' hp'

/-- C2 as the code has it, for async or post-kernel calls (the pre-kernel
synchronous path returns 0 unconditionally and issues an ACTIVE request
regardless of the target; the counterexample exhibits it): `get`/`put`
increment/decrement the usage count unconditionally; an ACTIVE hardware
request is issued only on the 0→1 usage edge of a `get`, a SUSPEND request
only on the 1→0 edge of a `put`; the result is 0, 1 or `-EIO`, with 1 only
for async calls left in a transitional state, 0 only when the finally
observed state matches the target, and `-EIO` only on a mismatch. -/
theorem claim_C2 (drv : RtDriver) (target : RtTarget) (asyncFlag preKernel : Bool)
    (s : RtSt) (h : asyncFlag = true ∨ preKernel = false)
    (hc : s.fsm = RtFsm.active ∨ s.fsm = RtFsm.suspend ∨ s.fsm = RtFsm.resuming ∨
      s.fsm = RtFsm.suspending) :
    ((device_pm_request drv target asyncFlag preKernel s).2.1.usage =
       if target = RtTarget.active then s.usage + 1 else s.usage - 1) ∧
    (target = RtTarget.active →
       RtTarget.active ∈ (device_pm_request drv target asyncFlag preKernel s).2.2 →
       s.usage = 0) ∧
    (target = RtTarget.suspend →
       RtTarget.suspend ∈ (device_pm_request drv target asyncFlag preKernel s).2.2 →
       s.usage = 1) ∧
    ((device_pm_request drv target asyncFlag preKernel s).1 = 0 ∨
     (device_pm_request drv target asyncFlag preKernel s).1 = 1 ∨
     (device_pm_request drv target asyncFlag preKernel s).1 = - eio) ∧
    ((device_pm_request drv target asyncFlag preKernel s).1 = 1 →
       asyncFlag = true ∧
       ((device_pm_request drv target asyncFlag preKernel s).2.1.fsm = RtFsm.resuming ∨
        (device_pm_request drv target asyncFlag preKernel s).2.1.fsm =
          RtFsm.suspending)) ∧
    ((device_pm_request drv target asyncFlag preKernel s).1 = 0 →
       (device_pm_request drv target asyncFlag preKernel s).2.1.fsm = target.fsm) ∧
    ((device_pm_request drv target asyncFlag preKernel s).1 = - eio →
       (device_pm_request drv target asyncFlag preKernel s).2.1.fsm ≠ target.fsm) := by
  refine rt_request_elim drv target asyncFlag preKernel s
    (fun out =>
      (out.2.1.usage = if target = RtTarget.active then s.usage + 1 else s.usage - 1) ∧
      (target = RtTarget.active → RtTarget.active ∈ out.2.2 → s.usage = 0) ∧
      (target = RtTarget.suspend → RtTarget.suspend ∈ out.2.2 → s.usage = 1) ∧
      (out.1 = 0 ∨ out.1 = 1 ∨ out.1 = - eio) ∧
      (out.1 = 1 → asyncFlag = true ∧
        (out.2.1.fsm = RtFsm.resuming ∨ out.2.1.fsm = RtFsm.suspending)) ∧
      (out.1 = 0 → out.2.1.fsm = target.fsm) ∧
      (out.1 = - eio → out.2.1.fsm ≠ target.fsm))
    ?_ ?_ ?_ ?_
  · rintro step rfl hfin
    refine ⟨rtSwitch_usage drv _ s.fsm, ?_, ?_, ?_, ?_, ?_, ?_⟩
    · rintro rfl hmem
      have hu := rtSwitch_reqs_active _ _ _ hmem
      rw [if_pos rfl] at hu
      omega
    · rintro rfl hmem
      have hu := rtSwitch_reqs_suspend _ _ _ hmem
      rw [if_neg (fun hh => RtTarget.noConfusion hh)] at hu
      omega
    · by_cases hm : target.fsm =
          (rtSwitch drv (if target = RtTarget.active then s.usage + 1 else s.usage - 1)
            s.fsm).1.fsm
      · rw [if_pos hm]; left; rfl
      · rw [if_neg hm]; right; right; rfl
    · by_cases hm : target.fsm =
          (rtSwitch drv (if target = RtTarget.active then s.usage + 1 else s.usage - 1)
            s.fsm).1.fsm
      · rw [if_pos hm]; intro h1; exact absurd h1 (by norm_num)
      · rw [if_neg hm]; intro h1; exact absurd h1 (by norm_num [eio])
    · by_cases hm : target.fsm =
          (rtSwitch drv (if target = RtTarget.active then s.usage + 1 else s.usage - 1)
            s.fsm).1.fsm
      · rw [if_pos hm]; intro _; exact hm.symm
      · rw [if_neg hm]; intro h0; exact absurd h0 (by norm_num [eio])
    · by_cases hm : target.fsm =
          (rtSwitch drv (if target = RtTarget.active then s.usage + 1 else s.usage - 1)
            s.fsm).1.fsm
      · rw [if_pos hm]; intro h0; exact absurd h0 (by norm_num [eio])
      · rw [if_neg hm]; intro _; exact fun hh => hm hh.symm
  · rintro step rfl hfin ha
    refine ⟨rtSwitch_usage drv _ s.fsm, ?_, ?_, Or.inr (Or.inl rfl), ?_, ?_, ?_⟩
    · rintro rfl hmem
      have hu := rtSwitch_reqs_active _ _ _ hmem
      rw [if_pos rfl] at hu
      omega
    · rintro rfl hmem
      have hu := rtSwitch_reqs_suspend _ _ _ hmem
      rw [if_neg (fun hh => RtTarget.noConfusion hh)] at hu
      omega
    · intro _
      refine ⟨ha, ?_⟩
      rcases rtSwitch_core drv
          (if target = RtTarget.active then s.usage + 1 else s.usage - 1) s.fsm hc with
        h' | h' | h' | h'
      · exact absurd (Or.inl h') hfin
      · exact absurd (Or.inr h') hfin
      · exact Or.inl h'
      · exact Or.inr h'
    · intro h0; exact absurd h0 (by norm_num)
    · intro h0; exact absurd h0 (by norm_num [eio])
  · rintro step rfl hfin ha hp
    rcases h with h | h
    · rw [ha] at h; cases h
    · rw [hp] at h; cases h
  · rintro step rfl hfin ha hp
    refine ⟨rtSwitch_usage drv _ s.fsm, ?_, ?_, ?_, ?_, ?_, ?_⟩
    · rintro rfl hmem
      have hu := rtSwitch_reqs_active _ _ _ hmem
      rw [if_pos rfl] at hu
      omega
    · rintro rfl hmem
      have hu := rtSwitch_reqs_suspend _ _ _ hmem
      rw [if_neg (fun hh => RtTarget.noConfusion hh)] at hu
      omega
    · by_cases hm : target.fsm = rtResolve
          (rtSwitch drv (if target = RtTarget.active then s.usage + 1 else s.usage - 1)
            s.fsm).1.fsm
      · rw [if_pos hm]; left; rfl
      · rw [if_neg hm]; right; right; rfl
    · by_cases hm : target.fsm = rtResolve
          (rtSwitch drv (if target = RtTarget.active then s.usage + 1 else s.usage - 1)
            s.fsm).1.fsm
      · rw [if_pos hm]; intro h1; exact absurd h1 (by norm_num)
      · rw [if_neg hm]; intro h1; exact absurd h1 (by norm_num [eio])
    · by_cases hm : target.fsm = rtResolve
          (rtSwitch drv (if target = RtTarget.active then s.usage + 1 else s.usage - 1)
            s.fsm).1.fsm
      · rw [if_pos hm]; intro _; exact hm.symm
      · rw [if_neg hm]; intro h0; exact absurd h0 (by norm_num [eio])
    · by_cases hm : target.fsm = rtResolve
          (rtSwitch drv (if target = RtTarget.active then s.usage + 1 else s.usage - 1)
            s.fsm).1.fsm
      · rw [if_pos hm]; intro h0; exact absurd h0 (by norm_num [eio])
      · rw [if_neg hm]; intro _; exact fun hh => hm hh.symm

/-!  Runtime-PM histories: the invariant and the boundary-trigger facts. -/

lemma rtStep_inv (e : RtEv) (s : RtSt) (hInv : rtInv s)
    (hp : e = RtEv.put → 1 ≤ s.usage) : rtInv (rtStep e s) := by
  obtain ⟨u0, f0⟩ := s
  obtain ⟨h1, h2⟩ := hInv
  cases e <;> cases f0 <;>
    simp_all [rtStep, device_pm_get, device_pm_put, device_pm_request, rtSwitch,
      rtIssue, rtResolve, rtAsyncDriver, rtInv] <;>
    (try split_ifs) <;> (try simp_all) <;> omega

lemma rtStep_reqs_spec (e : RtEv) (s : RtSt) (hInv : rtInv s) :
    (RtTarget.active ∈ rtStepReqs e s → e = RtEv.get ∧ s.usage = 0) ∧
    (RtTarget.suspend ∈ rtStepReqs e s → e = RtEv.put ∧ s.usage = 1) := by
  obtain ⟨u0, f0⟩ := s
  obtain ⟨h1, h2⟩ := hInv
  cases e <;> cases f0 <;>
    simp_all [rtStepReqs, device_pm_get, device_pm_put, device_pm_request, rtSwitch,
      rtIssue, rtResolve, rtAsyncDriver] <;>
    (try split_ifs) <;> (try simp_all) <;> (try omega)

lemma rtBalanced_cons (e : RtEv) (es : List RtEv) (s : RtSt)
    (h : rtBalanced (e :: es) s = true) :
    (e = RtEv.put → 1 ≤ s.usage) ∧ rtBalanced es (rtStep e s) = true := by
  cases e <;> simp_all [rtBalanced]

/-- Along a balanced history from a state satisfying the invariant, every
prefix state satisfies the invariant. -/
lemma rtRun_inv_pre : ∀ evs (s : RtSt), rtInv s → rtBalanced evs s = true →
    ∀ pre post, evs = pre ++ post → rtInv (rtRun pre s) := by
  intro evs
  induction evs with
  | nil =>
    intro s hs _ pre post hsplit
    have hpre : pre = [] := by
      cases pre with
      | nil => rfl
      | cons a l => cases hsplit
    subst hpre
    exact hs
  | cons e es ih =>
    intro s hs hb pre post hsplit
    cases pre with
    | nil => exact hs
    | cons e' pre' =>
      injection hsplit with he hsplit'
      subst he
      obtain ⟨hput, hb'⟩ := rtBalanced_cons e es s hb
      exact ih (rtStep e s) (rtStep_inv e s hs hput) hb' pre' post hsplit'

/-- C6 as the code has it: along a balanced history (every `put` is issued
while the usage count is at least 1) from a proper initial state, the usage
count stays nonnegative at every prefix, and a hardware transition request
is issued only when a `get` crosses the 0→1 usage boundary (an ACTIVE
request) or a `put` crosses the 1→0 boundary (a SUSPEND request).  An
unbalanced `put` drives the count negative (see the counterexample). -/
theorem claim_C6 (evs : List RtEv) (s₀ : RtSt) (h0 : rtInit s₀)
    (hb : rtBalanced evs s₀ = true) :
    (∀ pre post, evs = pre ++ post → 0 ≤ (rtRun pre s₀).usage) ∧
    (∀ pre e post, evs = pre ++ e :: post →
       (RtTarget.active ∈ rtStepReqs e (rtRun pre s₀) →
          e = RtEv.get ∧ (rtRun pre s₀).usage = 0) ∧
       (RtTarget.suspend ∈ rtStepReqs e (rtRun pre s₀) →
          e = RtEv.put ∧ (rtRun pre s₀).usage = 1)) := by
  have hinv0 : rtInv s₀ := ⟨by rw [h0.1], fun _ => h0.1⟩
  constructor
  · intro pre post hsplit
    exact (rtRun_inv_pre evs s₀ hinv0 hb pre post hsplit).1
  · intro pre e post hsplit
    exact rtStep_reqs_spec e (rtRun pre s₀)
      (rtRun_inv_pre evs s₀ hinv0 hb pre (e :: post) hsplit)

/-!  Concrete instances for the counterexamples and witnesses. -/

/-- A device record in the given state with every flag clear. -/
def mkDev (s : PmDeviceState) : DevSt := ⟨s, false, false, false, false, false⟩

/-- One PM-capable device, no dependencies, a succeeding driver. -/
def reg1 : Registry :=
  ⟨1, fun _ => true, fun _ _ => 0, fun _ => [], by intro i j hj; simp at hj⟩

/-- Two PM-capable devices with succeeding drivers; device 1 requires
device 0. -/
def reg2 : Registry :=
  ⟨2, fun _ => true, fun _ _ => 0, fun i => if i = 1 then [0] else [], by
    intro i j hj
    by_cases hi : i = 1
    · subst hi
      simp at hj
      omega
    · simp [hi] at hj⟩

/-- Every device suspended, flags clear. -/
def σsus : SysSt := fun _ => mkDev PmDeviceState.suspended

/-- Every device active, flags clear. -/
def σact : SysSt := fun _ => mkDev PmDeviceState.active

/-- Device 0 marked ignore-children, everything active. -/
def σ8 : SysSt := fun i =>
  if i = 0 then { mkDev PmDeviceState.active with ignoreChildren := true }
  else mkDev PmDeviceState.active

/-- Every device busy and suspended. -/
def σ9 : SysSt := fun _ => { mkDev PmDeviceState.suspended with busy := true }

/-- Device 0 suspended, device 1 active, flags clear. -/
def σ4 : SysSt := fun i =>
  if i = 0 then mkDev PmDeviceState.suspended else mkDev PmDeviceState.active

/-- A `device_set_power_state` collaborator that never completes before
returning (purely asynchronous driver). -/
def drvAsync : RtDriver := ⟨fun _ => false⟩

/-- A `device_set_power_state` collaborator that always completes
synchronously. -/
def drvSync : RtDriver := ⟨fun _ => true⟩

/-- C5 counterexample: a successful ACTIVE transition on a fresh device.
The driver callback runs with TRANSITIONING still clear (the flag bit
recorded in the trace entry is `false`) and the flag is still clear after
the call, refuting that `pm_device_state_set` marks TRANSITIONING before
invoking the callback and clears it after recording the new state. -/
theorem claim_C5_cex :
    (pm_device_state_set reg1 0 PmDeviceState.active σsus).2.2 =
      [(0, PmDeviceAction.resume, false)] ∧
    ((pm_device_state_set reg1 0 PmDeviceState.active σsus).2.1 0).transitioning
      = false ∧
    (pm_device_state_set reg1 0 PmDeviceState.active σsus).1 = 0 := by
  refine ⟨?_, ?_, ?_⟩ <;> decide

/-- C8 counterexample: device 0 is marked ignore-children and device 1,
which requires device 0, is ACTIVE; a bring-down request on device 0 still
fails with `-EBUSY` without invoking the callback — `pm_device_state_set`
never consults IGNORE_CHILDREN, so the check is not skipped. -/
theorem claim_C8_cex :
    (σ8 0).ignoreChildren = true ∧
    pm_device_state_set reg2 0 PmDeviceState.suspended σ8 = (- ebusy, σ8, []) := by
  exact ⟨rfl, rfl⟩

/-- C9 counterexample: a busy device that was already SUSPENDED before the
pass is still busy and SUSPENDED after `pm_suspend_devices` returns,
refuting "no device whose BUSY flag is set is in the SUSPENDED state after
the call". -/
theorem claim_C9_cex :
    ((pm_suspend_devices reg1 σ9).2.1 0).busy = true ∧
    ((pm_suspend_devices reg1 σ9).2.1 0).state = PmDeviceState.suspended := by
  refine ⟨?_, ?_⟩ <;> decide

/-- C4 counterexample: device 1 requires device 0; device 0 was already
SUSPENDED before the pass (skipped via `-EALREADY`, not recorded) while
device 1 is suspended and recorded.  The resume pass nonetheless drives
device 0 to ACTIVE through the bring-up dependency propagation, so the set
of woken devices is not the recorded set and a skipped device is touched. -/
theorem claim_C4_cex :
    (pm_suspend_devices reg2 σ4).2.2.1 = [1] ∧
    ((pm_suspend_devices reg2 σ4).2.1 0).state = PmDeviceState.suspended ∧
    ((pm_resume_devices reg2 (pm_suspend_devices reg2 σ4).2.1
        (pm_suspend_devices reg2 σ4).2.2.1).1 0).state = PmDeviceState.active ∧
    (0 : Nat) ∉ (pm_suspend_devices reg2 σ4).2.2.1 := by
  refine ⟨?_, ?_, ?_, ?_⟩ <;> decide

/-- C2 counterexample: a pre-kernel synchronous `device_pm_put_sync` from
usage 1, ACTIVE, with a purely asynchronous driver: the 1→0 edge starts a
suspend, the pre-kernel path then issues an extra ACTIVE request and
returns 0 even though the finally observed state (SUSPENDING) does not
match the requested SUSPENDED target — the claim requires `-EIO` there. -/
theorem claim_C2_cex :
    device_pm_put_sync drvAsync true ⟨1, RtFsm.active⟩ =
      (0, ⟨0, RtFsm.suspending⟩, [RtTarget.suspend, RtTarget.active]) ∧
    (device_pm_put_sync drvAsync true ⟨1, RtFsm.active⟩).2.1.fsm ≠ RtFsm.suspend := by
  refine ⟨?_, ?_⟩ <;> decide

/-- C6 counterexample: from a proper initial state (usage 0, SUSPENDED), a
single unmatched `device_pm_put` drives the usage count to −1, refuting
"usage ≥ 0 always" for arbitrary call sequences. -/
theorem claim_C6_cex :
    rtInit ⟨0, RtFsm.suspend⟩ ∧
    (rtRun [RtEv.put] ⟨0, RtFsm.suspend⟩).usage = -1 :=
  ⟨⟨rfl, Or.inr rfl⟩, by decide⟩

/-- Initial runtime-PM state for the C2 witness. -/
def sW2 : RtSt := ⟨0, RtFsm.suspend⟩

/-- Initial runtime-PM state for the C6 witness. -/
def sW6 : RtSt := ⟨0, RtFsm.active⟩

/-- Event history for the C6 witness. -/
def evsW6 : List RtEv := [RtEv.get, RtEv.put]

theorem claim_C1_witness :
    reg1.hasPmControl 0 = true ∧ (σact 0).transitioning = false ∧
    ((PmDeviceState.suspended = (σact 0).state →
       pm_device_state_set reg1 0 PmDeviceState.suspended σact =
         (- ealready, σact, [])) ∧
     (PmDeviceState.suspended = PmDeviceState.suspended →
       (σact 0).state = PmDeviceState.off →
       pm_device_state_set reg1 0 PmDeviceState.suspended σact =
         (- enotsup, σact, [])) ∧
     (∀ e ∈ (pm_device_state_set reg1 0 PmDeviceState.suspended σact).2.2,
       e.2.1 = actionOf PmDeviceState.suspended) ∧
     (PmDeviceState.suspended ≠ (σact 0).state →
       ¬(PmDeviceState.suspended = PmDeviceState.suspended ∧
         (σact 0).state = PmDeviceState.off) →
       (if PmDeviceState.suspended = PmDeviceState.active
        then (required_pass reg1 0 PmDeviceState.suspended σact).1
        else device_supported_foreach reg1 σact 0 PmDeviceState.suspended) = 0 →
       ∃ b, (0, actionOf PmDeviceState.suspended, b) ∈
         (pm_device_state_set reg1 0 PmDeviceState.suspended σact).2.2)) :=
  ⟨rfl, rfl, claim_C1 reg1 σact 0 PmDeviceState.suspended rfl rfl⟩

theorem claim_C2_witness :
    (true = true ∨ false = false) ∧
    (sW2.fsm = RtFsm.active ∨ sW2.fsm = RtFsm.suspend ∨ sW2.fsm = RtFsm.resuming ∨
      sW2.fsm = RtFsm.suspending) ∧
    (((device_pm_request drvSync RtTarget.active true false sW2).2.1.usage =
       if RtTarget.active = RtTarget.active then sW2.usage + 1 else sW2.usage - 1) ∧
     (RtTarget.active = RtTarget.active →
       RtTarget.active ∈ (device_pm_request drvSync RtTarget.active true false sW2).2.2 →
       sW2.usage = 0) ∧
     (RtTarget.active = RtTarget.suspend →
       RtTarget.suspend ∈
         (device_pm_request drvSync RtTarget.active true false sW2).2.2 →
       sW2.usage = 1) ∧
     ((device_pm_request drvSync RtTarget.active true false sW2).1 = 0 ∨
      (device_pm_request drvSync RtTarget.active true false sW2).1 = 1 ∨
      (device_pm_request drvSync RtTarget.active true false sW2).1 = - eio) ∧
     ((device_pm_request drvSync RtTarget.active true false sW2).1 = 1 →
       true = true ∧
       ((device_pm_request drvSync RtTarget.active true false sW2).2.1.fsm =
          RtFsm.resuming ∨
        (device_pm_request drvSync RtTarget.active true false sW2).2.1.fsm =
          RtFsm.suspending)) ∧
     ((device_pm_request drvSync RtTarget.active true false sW2).1 = 0 →
       (device_pm_request drvSync RtTarget.active true false sW2).2.1.fsm =
         RtTarget.fsm RtTarget.active) ∧
     ((device_pm_request drvSync RtTarget.active true false sW2).1 = - eio →
       (device_pm_request drvSync RtTarget.active true false sW2).2.1.fsm ≠
         RtTarget.fsm RtTarget.active)) :=
  ⟨Or.inl rfl, Or.inr (Or.inl rfl),
   claim_C2 drvSync RtTarget.active true false sW2 (Or.inl rfl) (Or.inr (Or.inl rfl))⟩

theorem claim_C6_witness :
    rtInit sW6 ∧ rtBalanced evsW6 sW6 = true ∧
    ((∀ pre post, evsW6 = pre ++ post → 0 ≤ (rtRun pre sW6).usage) ∧
     (∀ pre e post, evsW6 = pre ++ e :: post →
       (RtTarget.active ∈ rtStepReqs e (rtRun pre sW6) →
          e = RtEv.get ∧ (rtRun pre sW6).usage = 0) ∧
       (RtTarget.suspend ∈ rtStepReqs e (rtRun pre sW6) →
          e = RtEv.put ∧ (rtRun pre sW6).usage = 1))) :=
  ⟨⟨rfl, Or.inl rfl⟩, by decide,
   claim_C6 evsW6 sW6 ⟨rfl, Or.inl rfl⟩ (by decide)⟩

theorem claim_C7_witness :
    reg2.hasPmControl 1 = true ∧ (σsus 1).transitioning = false ∧
    (σsus 1).state ≠ PmDeviceState.active ∧ DriversOk reg2 ∧
    (((required_pass reg2 1 PmDeviceState.active σsus).1 = 0 →
       (∀ p ∈ reg2.requires 1, reg2.hasPmControl p = true →
          (((required_pass reg2 1 PmDeviceState.active σsus).2.1) p).state =
            PmDeviceState.active) ∧
       (pm_device_state_set reg2 1 PmDeviceState.active σsus).2.2 =
         (required_pass reg2 1 PmDeviceState.active σsus).2.2 ++
           [(1, PmDeviceAction.resume, false)]) ∧
     ((required_pass reg2 1 PmDeviceState.active σsus).1 ≠ 0 →
       (pm_device_state_set reg2 1 PmDeviceState.active σsus).1 =
         (required_pass reg2 1 PmDeviceState.active σsus).1 ∧
       ¬ skipCode ((required_pass reg2 1 PmDeviceState.active σsus).1) ∧
       (∀ a b, ((1, a, b) : Nat × PmDeviceAction × Bool) ∉
          (pm_device_state_set reg2 1 PmDeviceState.active σsus).2.2) ∧
       (pm_device_state_set reg2 1 PmDeviceState.active σsus).2.1 1 = σsus 1)) :=
  ⟨rfl, rfl, by decide, by intro d a; exact (by decide : ¬ skipCode (0 : Int)),
   claim_C7 reg2 σsus 1 rfl rfl (by decide)
     (by intro d a; exact (by decide : ¬ skipCode (0 : Int)))⟩

theorem claim_C8_witness :
    reg2.hasPmControl 0 = true ∧ (σ8 0).transitioning = false ∧
    legalCheck PmDeviceState.suspended ((σ8 0).state) =
      Except.ok (actionOf PmDeviceState.suspended, false) ∧
    (∃ c, c < reg2.n ∧ (0 : Nat) ∈ reg2.requires c ∧
      (reg2.hasPmControl c = false ∨ (σ8 c).state = PmDeviceState.active ∨
        (σ8 c).state ≠ PmDeviceState.suspended)) ∧
    pm_device_state_set reg2 0 PmDeviceState.suspended σ8 = (- ebusy, σ8, []) :=
  ⟨rfl, rfl, rfl, ⟨1, by decide, by decide, Or.inr (Or.inl rfl)⟩,
   claim_C8 reg2 σ8 0 PmDeviceState.suspended rfl rfl rfl
     ⟨1, by decide, by decide, Or.inr (Or.inl rfl)⟩⟩

theorem claim_C9_witness :
    (σ9 0).busy = true ∧ (pm_suspend_devices reg1 σ9).2.1 0 = σ9 0 :=
  ⟨rfl, claim_C9 reg1 σ9 0 rfl⟩
